import Mathlib

/-!
Verification development for the travel-concierge service
(`app/agents/concierge_agent.py`, `app/agents/deals_agent.py`, `app/main.py`).

Python strings are modelled as `List Char` (`Str`), Python `int` as `ℤ`/`ℕ`,
and Python floats as exact rationals `Qv` (a kernel-computable fraction type
with a positive denominator, so every definition below evaluates by `decide`).
Fallible code (Python exceptions) is modelled with `Option`/`Except`.
-/

/-- Python strings as lists of characters. -/
abbrev Str := List Char

/-- Character list of a Lean string literal. -/
def chars (s : String) : Str := s.data

/-- ASCII decimal digit (regex `\d`, ASCII mode). -/
def isDigitC (c : Char) : Bool := 48 ≤ c.toNat && c.toNat ≤ 57

/-- ASCII lowercase letter (regex `[a-z]`). -/
def isLowerC (c : Char) : Bool := 97 ≤ c.toNat && c.toNat ≤ 122

/-- ASCII uppercase letter. -/
def isUpperC (c : Char) : Bool := 65 ≤ c.toNat && c.toNat ≤ 90

/-- ASCII letter (regex `[a-zA-Z]`). -/
def isAlphaC (c : Char) : Bool := isLowerC c || isUpperC c

/-- Python `str.strip` / regex `\s` whitespace (ASCII). -/
def pySpaceC (c : Char) : Bool :=
  c.toNat = 32 || c.toNat = 9 || c.toNat = 10 || c.toNat = 13 || c.toNat = 11 || c.toNat = 12

/-- Regex `\w` word character (ASCII). -/
def isWordC (c : Char) : Bool := isAlphaC c || isDigitC c || c = '_'

/-- ASCII `str.lower` of one character. -/
def lowerC (c : Char) : Char :=
  if isUpperC c then Char.ofNat (c.toNat + 32) else c

/-- ASCII `str.upper` of one character. -/
def upperC (c : Char) : Char :=
  if isLowerC c then Char.ofNat (c.toNat - 32) else c

/-- Python `str.lower`. -/
def lowerStr (s : Str) : Str := s.map lowerC

/-- Python `str.strip` (no argument: strips ASCII whitespace on both ends). -/
def stripStr (s : Str) : Str :=
  ((s.dropWhile pySpaceC).reverse.dropWhile pySpaceC).reverse

/-- Python `str.title`: first letter of each alphabetic run uppercased, rest lowered. -/
def titleGo : Bool → Str → Str
  | _, [] => []
  | prevAlpha, c :: rest =>
    if isAlphaC c then
      (if prevAlpha then lowerC c else upperC c) :: titleGo true rest
    else
      c :: titleGo false rest

/-- Python `str.title`. -/
def titleStr (s : Str) : Str := titleGo false s

/-- `startsW pat s`: does `s` start with `pat`? -/
def startsW : Str → Str → Bool
  | [], _ => true
  | _ :: _, [] => false
  | p :: ps, c :: cs => p = c && startsW ps cs

/-- Python substring containment `pat in s`. -/
def subIn (pat : Str) : Str → Bool
  | [] => startsW pat []
  | c :: cs => startsW pat (c :: cs) || subIn pat cs

/-- Numeric value of one ASCII digit character. -/
def digitVal (c : Char) : Nat := c.toNat - 48

/-- Value of a string of ASCII digits (Python `int(...)` of a digit run). -/
def natOfDigits (s : Str) : Nat := s.foldl (fun a c => a * 10 + digitVal c) 0

/-- Digit character of a value below ten. -/
def digitC : Nat → Char
  | 0 => '0' | 1 => '1' | 2 => '2' | 3 => '3' | 4 => '4'
  | 5 => '5' | 6 => '6' | 7 => '7' | 8 => '8' | 9 => '9'
  | _ => '*'

/-- Fuel-driven digit printer (structural recursion so the kernel can
evaluate it; the fuel `n + 1` always suffices for the value `n`). -/
def natToStrAux : Nat → Nat → Str
  | 0, _ => []
  | fuel + 1, n =>
    if n < 10 then [digitC n] else natToStrAux fuel (n / 10) ++ [digitC (n % 10)]

/-- Python `str(n)` for a natural number (no padding). -/
def natToStr (n : Nat) : Str := natToStrAux (n + 1) n

/-- Python `f"{n:02d}"` for `n` of at most two digits. -/
def pad2 (n : Nat) : Str :=
  if n < 100 then [digitC (n / 10), digitC (n % 10)] else natToStr n

/-- `strftime("%Y")`-style four-digit zero padding. -/
def pad4 (n : Nat) : Str :=
  if n < 10000 then
    [digitC (n / 1000), digitC (n / 100 % 10), digitC (n / 10 % 10), digitC (n % 10)]
  else natToStr n

/-! ### A kernel-computable exact-fraction model of Python numbers

All arithmetic on Python floats in the modelled code is translated to exact
rational arithmetic (the standard shallow-embedding convention).  `Qv` keeps
the denominator positive by construction; fractions are not reduced, which
keeps every operation a plain `Int` computation that the kernel evaluates. -/

structure Qv where
  n : Int
  d : Int
deriving DecidableEq

/-- Embed an integer. -/
def Qv.ofInt (k : Int) : Qv := ⟨k, 1⟩

/-- Embed a natural number. -/
def Qv.ofNat (k : Nat) : Qv := ⟨(k : Int), 1⟩

def Qv.add (a b : Qv) : Qv := ⟨a.n * b.d + b.n * a.d, a.d * b.d⟩

def Qv.sub (a b : Qv) : Qv := ⟨a.n * b.d - b.n * a.d, a.d * b.d⟩

def Qv.mul (a b : Qv) : Qv := ⟨a.n * b.n, a.d * b.d⟩

/-- Exact division; all call sites guard the zero-divisor case separately,
mirroring Python's `ZeroDivisionError`. -/
def Qv.div (a b : Qv) : Qv :=
  if b.n < 0 then ⟨-(a.n * b.d), -(a.d * b.n)⟩ else ⟨a.n * b.d, a.d * b.n⟩

/-- `a ≤ b` by cross multiplication (denominators are positive by construction). -/
def Qv.le (a b : Qv) : Bool := a.n * b.d ≤ b.n * a.d

/-- `a < b` by cross multiplication. -/
def Qv.lt (a b : Qv) : Bool := a.n * b.d < b.n * a.d

/-- Value equality (`==` on numbers). -/
def Qv.veq (a b : Qv) : Bool := a.n * b.d = b.n * a.d

/-- Is the value zero (Python falsiness of a number)? -/
def Qv.isZero (a : Qv) : Bool := a.n = 0

/-- Python `int(x)`: truncation toward zero (valid for positive denominators). -/
def Qv.toInt (a : Qv) : Int := a.n.tdiv a.d

/-- Floor, used by `round`. -/
def Qv.floor (a : Qv) : Int := a.n.fdiv a.d

/-- Python `round(x, 2)`: round half to even at two decimals. -/
def Qv.round2 (a : Qv) : Qv :=
  let x : Qv := a.mul (Qv.ofNat 100)
  let f : Int := x.floor
  let r : Qv := x.sub (Qv.ofInt f)
  let k : Int :=
    if r.lt ⟨1, 2⟩ then f
    else if (⟨1, 2⟩ : Qv).lt r then f + 1
    else if f % 2 = 0 then f else f + 1
  Qv.div (Qv.ofInt k) (Qv.ofNat 100)

/-! ### Dates -/

/-- A calendar date as produced by Python `datetime`. -/
structure PyDate where
  year : Nat
  month : Nat
  day : Nat
deriving DecidableEq

/-- `strftime("%Y-%m-%d")`. -/
def fmtDate (d : PyDate) : Str :=
  pad4 d.year ++ chars "-" ++ pad2 d.month ++ chars "-" ++ pad2 d.day

/-- `f"{y}-{month:02d}-{day:02d}"` (year printed unpadded). -/
def fmtYMD (y m d : Nat) : Str :=
  natToStr y ++ chars "-" ++ pad2 m ++ chars "-" ++ pad2 d

/-! ### `ConciergeAgent.normalize_date`

Faithful translation of `concierge_agent.py` lines 213-319.  The relative-date
branch depends on the ambient current time (`datetime.now()`), which is
modelled by an oracle `rel : Nat → Option PyDate` mapping a day offset to
`now + offset` (`none` models the `OverflowError` raised past year 9999,
caught by the function's `except` clause). -/

/-- `re.match(r'\d{4}-\d{2}-\d{2}', s)`: anchored prefix test. -/
def matchesYMD : Str → Bool
  | a :: b :: c :: d :: h1 :: e :: f :: h2 :: g :: h :: _ =>
    isDigitC a && isDigitC b && isDigitC c && isDigitC d && h1 = '-' &&
    isDigitC e && isDigitC f && h2 = '-' && isDigitC g && isDigitC h
  | _ => false

/-- Is `(a, b)` one of the ordinal suffixes `st`, `nd`, `rd`, `th`? -/
def isOrdPair (a b : Char) : Bool :=
  (a = 's' && b = 't') || (a = 'n' && b = 'd') || (a = 'r' && b = 'd') || (a = 't' && b = 'h')

/-- `re.sub(r'(\d+)(st|nd|rd|th)', r'\1', s)`: delete every ordinal suffix that
immediately follows a digit, scanning left to right without overlap. -/
def stripOrdinals : Str → Str
  | [] => []
  | [c] => [c]
  | [c, a] => [c, a]
  | c :: a :: b :: rest =>
    if isDigitC c && isOrdPair a b then c :: stripOrdinals rest
    else c :: stripOrdinals (a :: b :: rest)

/-- Does the string start with an ordinal suffix pair? -/
def startsOrd : Str → Bool
  | a :: b :: _ => isOrdPair a b
  | _ => false

/-- The ordered month-name table of `normalize_date` (dict insertion order). -/
def monthTable : List (Str × Nat) :=
  [(chars "jan", 1), (chars "feb", 2), (chars "mar", 3), (chars "apr", 4),
   (chars "may", 5), (chars "jun", 6), (chars "jul", 7), (chars "aug", 8),
   (chars "sep", 9), (chars "oct", 10), (chars "nov", 11), (chars "dec", 12),
   (chars "january", 1), (chars "february", 2), (chars "march", 3), (chars "april", 4),
   (chars "june", 6), (chars "july", 7), (chars "august", 8), (chars "september", 9),
   (chars "october", 10), (chars "november", 11), (chars "december", 12)]

/-- First table key contained in `name` wins; `0` when none matches. -/
def findMonth (name : Str) : Nat :=
  ((monthTable.find? fun p => subIn p.1 name).map Prod.snd).getD 0

/-- `(\d{4})?` at the head of the remaining input. -/
def take4digits : Str → Option Nat
  | a :: b :: c :: d :: _ =>
    if isDigitC a && isDigitC b && isDigitC c && isDigitC d then
      some (natOfDigits [a, b, c, d])
    else none
  | _ => none

/-- Result of the day-month(-year) searches. -/
structure DMYm where
  day : Nat
  mon : Str
  year : Option Nat
deriving DecidableEq

/-- Continuation `([a-z]+)\.?\s*(\d{4})?` after the whitespace of the
day-month pattern: letter run, optional dot, whitespace, optional year. -/
def afterSpaceDMY (day : Nat) (t2 : Str) : Option DMYm :=
  let mon := t2.takeWhile isLowerC
  if mon = [] then none
  else
    let t3 := t2.dropWhile isLowerC
    let t4 := if t3.head? = some '.' then t3.drop 1 else t3
    some ⟨day, mon, take4digits (t4.dropWhile pySpaceC)⟩

/-- Continuation of `(\d{1,2})(?:st|nd|rd|th)?\s+([a-z]+)\.?\s*(\d{4})?` after
the day digits: optional ordinal, then mandatory whitespace. -/
def afterDayDMY (day : Nat) (t : Str) : Option DMYm :=
  match (if startsOrd t then t.drop 2 else t) with
  | c :: rest =>
    if pySpaceC c then afterSpaceDMY day ((c :: rest).dropWhile pySpaceC) else none
  | [] => none

/-- Two-digit day attempt of the day-month search. -/
def dmyTwo (c1 : Char) : Str → Option DMYm
  | c2 :: rest2 =>
    if isDigitC c2 then afterDayDMY (digitVal c1 * 10 + digitVal c2) rest2 else none
  | [] => none

/-- One anchor position of the day-month search: `\d{1,2}` greedy (two digits
first, then one). -/
def matchDMYAt : Str → Option DMYm
  | [] => none
  | c1 :: rest =>
    if isDigitC c1 then dmyTwo c1 rest <|> afterDayDMY (digitVal c1) rest else none

/-- `re.search(r'(\d{1,2})(?:st|nd|rd|th)?\s+([a-z]+)\.?\s*(?P<year>\d{4})?', s)`. -/
def searchDMY : Str → Option DMYm
  | [] => none
  | c :: rest => matchDMYAt (c :: rest) <|> searchDMY rest

/-- Result of the month-day(-year) search. -/
structure MDYm where
  mon : Str
  day : Nat
  year : Option Nat
deriving DecidableEq

/-- Tail `(?:st|nd|rd|th)?(?:,)?\s*(?P<year>\d{4})?` of the month-day
pattern, after the day digits. -/
def mdyAfterDay (mon : Str) (day : Nat) (t5 : Str) : Option MDYm :=
  let t6 := if startsOrd t5 then t5.drop 2 else t5
  let t7 := if t6.head? = some ',' then t6.drop 1 else t6
  some ⟨mon, day, take4digits (t7.dropWhile pySpaceC)⟩

/-- Day digits `(\d{1,2})` of the month-day pattern (greedy: two digits when
available, else one; the rest of the pattern is nullable so no backtracking). -/
def mdyDigits (mon : Str) : Str → Option MDYm
  | d1 :: d2 :: r2 =>
    if isDigitC d1 then
      if isDigitC d2 then mdyAfterDay mon (digitVal d1 * 10 + digitVal d2) r2
      else mdyAfterDay mon (digitVal d1) (d2 :: r2)
    else none
  | [d1] => if isDigitC d1 then mdyAfterDay mon (digitVal d1) [] else none
  | [] => none

/-- One anchor position of
`([a-z]+)\.?\s+(\d{1,2})(?:st|nd|rd|th)?(?:,)?\s*(?P<year>\d{4})?`. -/
def matchMDYAt (t : Str) : Option MDYm :=
  let mon := t.takeWhile isLowerC
  if mon = [] then none
  else
    let t2 := t.dropWhile isLowerC
    let t3 := if t2.head? = some '.' then t2.drop 1 else t2
    match t3 with
    | c :: rest =>
      if pySpaceC c then mdyDigits mon ((c :: rest).dropWhile pySpaceC) else none
    | [] => none

/-- `re.search` for the month-day(-year) pattern. -/
def searchMDY : Str → Option MDYm
  | [] => none
  | c :: rest => matchMDYAt (c :: rest) <|> searchMDY rest

/-- `re.search(r'([a-z]+)', s)`: first maximal lowercase-letter run. -/
def firstLowerRun : Str → Option Str
  | [] => none
  | c :: rest =>
    if isLowerC c then some ((c :: rest).takeWhile isLowerC) else firstLowerRun rest

/-- `re.findall(r'\d+', s)[0]`: first maximal digit run. -/
def firstDigitRun : Str → Option Str
  | [] => none
  | c :: rest =>
    if isDigitC c then some ((c :: rest).takeWhile isDigitC) else firstDigitRun rest

/-- Regexes 2 (day month year): produce the formatted date when a month name
matches, otherwise fall through. -/
def tryDMY (clean : Str) : Option Str :=
  match searchDMY clean with
  | some r =>
    let m := findMonth r.mon
    if 0 < m then some (fmtYMD (r.year.getD 2025) m r.day) else none
  | none => none

/-- Regex 1 (month day year). -/
def tryMDY (clean : Str) : Option Str :=
  match searchMDY clean with
  | some r =>
    let m := findMonth r.mon
    if 0 < m then some (fmtYMD (r.year.getD 2025) m r.day) else none
  | none => none

/-- Month-only fallback: `f"2025-{m:02d}"`. -/
def tryMonthOnly (clean : Str) : Option Str :=
  match firstLowerRun clean with
  | some run =>
    let m := findMonth run
    if 0 < m then some (chars "2025-" ++ pad2 m) else none
  | none => none

/-- Relative-date branches (`week`, `day`, `tomorrow`); `rel` is the
current-time oracle and `none` from it models the caught `OverflowError`. -/
def tryRelative (rel : Nat → Option PyDate) (clean : Str) : Option Str :=
  if subIn (chars "week") clean then
    let w := ((firstDigitRun clean).map natOfDigits).getD 1
    (rel (7 * w)).map fmtDate
  else if subIn (chars "day") clean then
    let d := ((firstDigitRun clean).map natOfDigits).getD 1
    (rel d).map fmtDate
  else if subIn (chars "tomorrow") clean then (rel 1).map fmtDate
  else none

/-- The twelve three-letter month tokens of the final validity check. -/
def months3 : List Str :=
  [chars "jan", chars "feb", chars "mar", chars "apr", chars "may", chars "jun",
   chars "jul", chars "aug", chars "sep", chars "oct", chars "nov", chars "dec"]

/-- `any(m in s for m in months)`. -/
def anyMonthToken (s : Str) : Bool := months3.any fun t => subIn t s

/-- The final check's digit-date search (one or two digits, then a dash or a
slash, then one or two digits) reduced to its satisfiability: it succeeds
exactly when a digit, a dash or slash, and a digit occur consecutively. -/
def hasDigitDashDigit : Str → Bool
  | a :: b :: c :: rest =>
    (isDigitC a && (b = '-' || b = '/') && isDigitC c) || hasDigitDashDigit (b :: c :: rest)
  | _ => false

/-- `ConciergeAgent.normalize_date` (concierge_agent.py lines 213-319). -/
def normalize_date (rel : Nat → Option PyDate) (dateStr : Option Str) : Option Str :=
  match dateStr with
  | none => none
  | some s =>
    if s = [] then none
    else if matchesYMD s then some s
    else
      let clean := stripOrdinals (lowerStr s)
      match tryDMY clean <|> tryMDY clean <|> tryMonthOnly clean <|> tryRelative rel clean with
      | some r => some r
      | none =>
        if !anyMonthToken (lowerStr s) && !hasDigitDashDigit s then none else some s

-- Sanity examples corresponding to the repository's own date tests.
example : normalize_date (fun _ => none) (some (chars "December 25th")) =
    some (chars "2025-12-25") := by decide
example : normalize_date (fun _ => none) (some (chars "dec 25")) =
    some (chars "2025-12-25") := by decide
example : normalize_date (fun _ => none) (some (chars "Jan 1st")) =
    some (chars "2025-01-01") := by decide
example : normalize_date (fun _ => none) (some (chars "2025-12-25")) =
    some (chars "2025-12-25") := by decide
example : normalize_date (fun _ => none) (some (chars "3rd January 2026")) =
    some (chars "2026-01-03") := by decide
example : normalize_date (fun n => some ⟨2026, 10, if n = 14 then 26 else 13⟩)
    (some (chars "In 2 weeks")) = some (chars "2026-10-26") := by decide
example : normalize_date (fun _ => some ⟨2026, 10, 13⟩) (some (chars "Tomorrow")) =
    some (chars "2026-10-13") := by decide
example : normalize_date (fun _ => none) (some (chars "xyz")) = none := by decide
example : normalize_date (fun _ => none) (some (chars "december")) =
    some (chars "2025-12") := by decide
-- The first letter run of "in december" is "in", so the month-only branch
-- fails and the final check passes the string through unchanged.
example : normalize_date (fun _ => none) (some (chars "in december")) =
    some (chars "in december") := by decide

/-- Exact `YYYY-MM` month-key shape (the other canonical form of the spec). -/
def isYearMonthKey : Str → Bool
  | [a, b, c, d, e, f, g] =>
    isDigitC a && isDigitC b && isDigitC c && isDigitC d && e = '-' && isDigitC f && isDigitC g
  | _ => false

/-- Characters that occur in the formatted date outputs: digits and dashes. -/
def ddChar (c : Char) : Prop := isDigitC c = true ∨ c = '-'

/-! ### `SimpleNLU.extract`

Faithful translation of `concierge_agent.py` lines 6-146: the intent keyword
cascade and the entity regexes, each implemented with Python `re` backtracking
semantics specialized to its concrete pattern. -/

/-- The NLU's vocabulary of known cities (`SimpleNLU.known_cities`). -/
def knownCities : List Str :=
  [chars "Mumbai", chars "Delhi", chars "Bangalore", chars "Goa", chars "Chennai",
   chars "Paris", chars "Tokyo", chars "London", chars "Dubai", chars "New York"]

/-- Amenity keywords used for intent detection. -/
def amenityIntentKeywords : List Str :=
  [chars "pet", chars "pool", chars "wifi", chars "breakfast", chars "gym",
   chars "spa", chars "parking", chars "ocean", chars "mountain", chars "friendly"]

/-- Amenity vocabulary for slot extraction (`known_amenities`). -/
def knownAmenities : List Str :=
  [chars "wifi", chars "pool", chars "spa", chars "pet", chars "dog", chars "gym",
   chars "breakfast", chars "parking", chars "ocean", chars "sea", chars "mountain"]

/-- Lookahead `(?=\s+(to|for|on)|$)` of the origin regex: end of input, or
whitespace followed by `to`/`for`/`on`. -/
def lookAheadOrig (rest : Str) : Bool :=
  match rest with
  | [] => true
  | c :: _ =>
    pySpaceC c &&
      (let r2 := rest.dropWhile pySpaceC
       startsW (chars "to") r2 || startsW (chars "for") r2 || startsW (chars "on") r2)

/-- Lazy capture `([a-zA-Z\s]+?)` of the origin regex: extend one class
character at a time, stopping at the first position whose lookahead holds. -/
def capScan (consumed : Str) : Str → Option Str
  | [] => none
  | c :: rest2 =>
    if isAlphaC c || pySpaceC c then
      if lookAheadOrig rest2 then some (consumed ++ [c])
      else capScan (consumed ++ [c]) rest2
    else none

/-- `\s+` then the lazy capture, with the regex backtracking resolved: the
whitespace run is consumed greedily; when no capture succeeds after it, the
only remaining match is a single whitespace character at end of input. -/
def origCapture (t : Str) : Option Str :=
  match t with
  | c :: _ =>
    if pySpaceC c then
      let after := t.dropWhile pySpaceC
      match capScan [] after with
      | some cap => some cap
      | none => if after = [] then some [c] else none
    else none
  | [] => none

/-- Scan for `\b(from|departing|leaving)` and run the capture at each anchor. -/
def origScan : Option Char → Str → Option Str
  | _, [] => none
  | prev, t@(c :: rest) =>
    let bound := match prev with | none => true | some p => !isWordC p
    if bound && startsW (chars "from") t then
      match origCapture (t.drop 4) with
      | some cap => some cap
      | none => origScan (some c) rest
    else if bound && startsW (chars "departing") t then
      match origCapture (t.drop 9) with
      | some cap => some cap
      | none => origScan (some c) rest
    else if bound && startsW (chars "leaving") t then
      match origCapture (t.drop 7) with
      | some cap => some cap
      | none => origScan (some c) rest
    else origScan (some c) rest

/-- `re.search(r'\b(from|departing|leaving)\s+(?P<origin>[a-zA-Z\s]+?)(?=\s+(to|for|on)|$)', t)`. -/
def originSearch (t : Str) : Option Str := origScan none t

/-- `found_origin`: the captured origin phrase, stripped and lowered (empty
when the regex does not match). -/
def foundOrigin (t : Str) : Str :=
  match originSearch t with
  | some cap => lowerStr (stripStr cap)
  | none => []

/-- Value of the digit run at the head of `t`, when it starts with a digit. -/
def digitRunValueAt (t : Str) : Option Nat :=
  match t with
  | c :: _ => if isDigitC c then some (natOfDigits (t.takeWhile isDigitC)) else none
  | [] => none

/-- `re.search(r'(\$|budget\s?|under\s?)(?P<amt>\d+)', t)`. -/
def budgetSearch : Str → Option Nat
  | [] => none
  | t@(c :: rest) =>
    (if c = '$' then digitRunValueAt rest
     else if startsW (chars "budget") t then
       let q := t.drop 6
       digitRunValueAt (match q with
         | c2 :: r2 => if pySpaceC c2 then r2 else q
         | [] => q)
     else if startsW (chars "under") t then
       let q := t.drop 5
       digitRunValueAt (match q with
         | c2 :: r2 => if pySpaceC c2 then r2 else q
         | [] => q)
     else none)
    <|> budgetSearch rest

/-- `\s+(?P<date>.{4,25})` after a date keyword: the whitespace count
backtracks downward until at least four non-newline characters remain. -/
def dateKLoop (t : Str) : Nat → Option Str
  | 0 => none
  | k + 1 =>
    let run := (t.drop (k + 1)).takeWhile fun c => c ≠ '\n'
    if 4 ≤ run.length then some (run.take 25) else dateKLoop t k

/-- Date capture after `on`/`from`/`starting`. -/
def dateAfterKw (t : Str) : Option Str :=
  let k := (t.takeWhile pySpaceC).length
  if k = 0 then none else dateKLoop t k

/-- Scan for `\b(on|from|starting)\b\s+(?P<date>.{4,25})`. -/
def dateScanA : Option Char → Str → Option Str
  | _, [] => none
  | prev, t@(c :: rest) =>
    let bound := match prev with | none => true | some p => !isWordC p
    if bound && startsW (chars "on") t then
      match dateAfterKw (t.drop 2) with
      | some d => some d
      | none => dateScanA (some c) rest
    else if bound && startsW (chars "from") t then
      match dateAfterKw (t.drop 4) with
      | some d => some d
      | none => dateScanA (some c) rest
    else if bound && startsW (chars "starting") t then
      match dateAfterKw (t.drop 8) with
      | some d => some d
      | none => dateScanA (some c) rest
    else dateScanA (some c) rest

/-- Python `s.split(pat)[0]`: the prefix before the first occurrence of `pat`
(the whole string when `pat` does not occur). -/
def splitBefore (pat : Str) : Str → Str
  | [] => []
  | s@(c :: cs) => if startsW pat s then [] else c :: splitBefore pat cs

/-- The twelve three-letter month alternatives of the fallback date regex. -/
def monAlt (t : Str) : Bool :=
  startsW (chars "jan") t || startsW (chars "feb") t || startsW (chars "mar") t ||
  startsW (chars "apr") t || startsW (chars "may") t || startsW (chars "jun") t ||
  startsW (chars "jul") t || startsW (chars "aug") t || startsW (chars "sep") t ||
  startsW (chars "oct") t || startsW (chars "nov") t || startsW (chars "dec") t

/-- `(st|nd|rd|th)?`: consumed length and remainder. -/
def ordAfter (t : Str) : Nat × Str := if startsOrd t then (2, t.drop 2) else (0, t)

/-- `(\s+\d{1,2}(st|nd|rd|th)?)?` day group of the fallback date regex:
consumed length and remainder (consuming nothing when any part fails). -/
def dayGroupB (t : Str) : Nat × Str :=
  let k := (t.takeWhile pySpaceC).length
  if k = 0 then (0, t)
  else
    match t.drop k with
    | d1 :: r1 =>
      if isDigitC d1 then
        match r1 with
        | d2 :: r2 =>
          if isDigitC d2 then
            let (o, t3) := ordAfter r2
            (k + 2 + o, t3)
          else
            let (o, t3) := ordAfter r1
            (k + 1 + o, t3)
        | [] => (k + 1, [])
      else (0, t)
    | [] => (0, t)

/-- `(\s+\d{4})?` year group: consumed length. -/
def yearGroupB (t : Str) : Nat :=
  let k := (t.takeWhile pySpaceC).length
  if k = 0 then 0
  else
    match t.drop k with
    | a :: b :: c :: d :: _ =>
      if isDigitC a && isDigitC b && isDigitC c && isDigitC d then k + 4 else 0
    | _ => 0

/-- Characters consumed after the three month letters:
`[a-z]*\.?` then the optional day and year groups. -/
def monthBTail (t : Str) : Nat :=
  let w := (t.takeWhile isLowerC).length
  let t1 := t.drop w
  let (dot, t2) : Nat × Str := match t1 with
    | '.' :: r => (1, r)
    | _ => (0, t1)
  let (dn, t3) := dayGroupB t2
  w + dot + dn + yearGroupB t3

/-- One anchor position of the fallback date regex
`(in\s)?(?P<mon>jan|...|dec)[a-z]*\.?(\s+\d{1,2}(st|nd|rd|th)?)?(\s+\d{4})?`,
returning the whole matched text (group 0). -/
def monthBAt (t : Str) : Option Str :=
  let withIn : Option Str :=
    match t with
    | 'i' :: 'n' :: c :: rest =>
      if pySpaceC c && monAlt rest then some (t.take (6 + monthBTail (rest.drop 3)))
      else none
    | _ => none
  match withIn with
  | some g => some g
  | none => if monAlt t then some (t.take (3 + monthBTail (t.drop 3))) else none

/-- `re.search` for the fallback date regex. -/
def monthBScan : Str → Option Str
  | [] => none
  | t@(_ :: rest) =>
    match monthBAt t with
    | some g => some g
    | none => monthBScan rest

/-- Python `group0.replace("in ", "")`. -/
def removeInSpace : Str → Str
  | 'i' :: 'n' :: ' ' :: rest => removeInSpace rest
  | c :: rest => c :: removeInSpace rest
  | [] => []

/-- `re.search(r'(\d+)\s*(adults?|guests?|people|pax|travellers?)|family of\s*(\d+)', t)`. -/
def travSearch : Str → Option Nat
  | [] => none
  | t@(c :: rest) =>
    (if isDigitC c then
      let run := t.takeWhile isDigitC
      let t2 := (t.drop run.length).dropWhile pySpaceC
      if startsW (chars "adult") t2 || startsW (chars "guest") t2 ||
         startsW (chars "people") t2 || startsW (chars "pax") t2 ||
         startsW (chars "traveller") t2 then
        some (natOfDigits run)
      else none
    else if startsW (chars "family of") t then
      digitRunValueAt ((t.drop 9).dropWhile pySpaceC)
    else none)
    <|> travSearch rest

/-- `re.search(r'for\s+(\d+)\s*(nights?|days?)', t)`. -/
def nightSearch : Str → Option Nat
  | [] => none
  | t@(_ :: rest) =>
    (if startsW (chars "for") t then
      let t1 := t.drop 3
      let k := (t1.takeWhile pySpaceC).length
      if k = 0 then none
      else
        match t1.drop k with
        | d :: _ =>
          if isDigitC d then
            let t2 := t1.drop k
            let run := t2.takeWhile isDigitC
            let t3 := (t2.drop run.length).dropWhile pySpaceC
            if startsW (chars "night") t3 || startsW (chars "day") t3 then
              some (natOfDigits run)
            else none
          else none
        | [] => none
    else none)
    <|> nightSearch rest

/-- `re.search(r'(option|number|bundle|#)\s?(?P<idx>\d+)', t)`. -/
def indexSearch : Str → Option Nat
  | [] => none
  | t@(c :: rest) =>
    (let kwLen : Option Nat :=
      if startsW (chars "option") t then some 6
      else if startsW (chars "number") t then some 6
      else if startsW (chars "bundle") t then some 6
      else if c = '#' then some 1
      else none
     match kwLen with
     | some n =>
       let t1 := t.drop n
       digitRunValueAt (match t1 with
         | c2 :: r2 => if pySpaceC c2 then r2 else t1
         | [] => t1)
     | none => none)
    <|> indexSearch rest

/-- `re.search(r'(go with|choose|select|book|chose)\s+(?P<airline>\w+)', t)`. -/
def airlineSearch : Str → Option Str
  | [] => none
  | t@(_ :: rest) =>
    (let kwLen : Option Nat :=
      if startsW (chars "go with") t then some 7
      else if startsW (chars "choose") t then some 6
      else if startsW (chars "select") t then some 6
      else if startsW (chars "book") t then some 4
      else if startsW (chars "chose") t then some 5
      else none
     match kwLen with
     | some n =>
       let t1 := t.drop n
       let k := (t1.takeWhile pySpaceC).length
       if k = 0 then none
       else
         match t1.drop k with
         | w :: _ => if isWordC w then some ((t1.drop k).takeWhile isWordC) else none
         | [] => none
     | none => none)
    <|> airlineSearch rest

/-- Result dictionary of one `SimpleNLU.extract` call. -/
structure Extracted where
  intent : Str
  destination : Option Str
  origin : Option Str
  budget : Option Qv
  dates : Option Str
  travelers : Option Nat
  nights : Option Nat
  amenities : Option (List Str)
  index : Option Nat
  airline : Option Str
deriving DecidableEq

/-- `SimpleNLU.extract` (concierge_agent.py lines 15-146). -/
def extract (text : Str) : Extracted :=
  let t := lowerStr text
  let has_amenity := amenityIntentKeywords.any fun k => subIn k t
  let intentAirline : Str × Option Str :=
    if subIn (chars "watch") t || subIn (chars "track") t || subIn (chars "alert") t then
      (chars "watch", none)
    else if subIn (chars "book") t || subIn (chars "select") t || subIn (chars "choose") t ||
        subIn (chars "chose") t || subIn (chars "go with") t || subIn (chars "pick") t then
      (chars "book", none)
    else if subIn (chars "bundle") t || subIn (chars "package") t ||
        subIn (chars "show bundle") t then
      (chars "bundle", none)
    else if subIn (chars "flight") t &&
        (subIn (chars "show") t || subIn (chars "again") t || subIn (chars "list") t) then
      (chars "show_flights", none)
    else if subIn (chars "hotel") t || has_amenity then
      (chars "refine", some (chars "hotel"))
    else
      (chars "search", none)
  let intent := intentAirline.1
  let fo := foundOrigin t
  let destination :=
    knownCities.find? fun city => subIn (lowerStr city) t && !(lowerStr city == fo)
  let budget := (budgetSearch t).map Qv.ofNat
  let datesA : Option Str :=
    match dateScanA none t with
    | some d =>
      let raw := stripStr (splitBefore (chars " for ") (splitBefore (chars " to ") d))
      if knownCities.any (fun c => subIn (lowerStr c) (lowerStr raw)) then none else some raw
    | none => none
  let dates :=
    match datesA with
    | some r => some r
    | none => (monthBScan t).map fun g => stripStr (removeInSpace g)
  let origin := (originSearch t).map fun cap => titleStr (stripStr cap)
  let travelers := travSearch t
  let nights := nightSearch t
  let amenities :=
    let found := knownAmenities.filter fun a => subIn a t
    if found = [] then none else some found
  let bookExtras : Option Nat × Option Str :=
    if intent = chars "book" then
      (indexSearch t,
        match airlineSearch t with
        | some cand =>
          if lowerStr cand == chars "option" || lowerStr cand == chars "number" ||
             lowerStr cand == chars "flight" || lowerStr cand == chars "deal" then none
          else some cand
        | none => none)
    else (none, none)
  { intent := intent, destination := destination, origin := origin, budget := budget,
    dates := dates, travelers := travelers, nights := nights, amenities := amenities,
    index := bookExtras.1,
    airline := if intent = chars "book" then bookExtras.2 else intentAirline.2 }

/-! ### Catalog Store records (`app/models.py`) -/

/-- `Listing` table row. -/
structure Listing where
  id : Option Nat
  listing_id : Str
  date : Str
  price : Qv
  availability : Int
  amenities : Option Str
  neighbourhood : Option Str
  avg_30d_price : Option Qv
  is_deal : Bool
  deal_score : Option Qv
deriving DecidableEq

/-- `Flight` table row. -/
structure Flight where
  id : Option Nat
  origin : Str
  destination : Str
  airline : Str
  stops : Int
  duration_minutes : Int
  price : Qv
  departure_date : Option Str
  seats_left : Option Int
  is_promo : Bool
deriving DecidableEq

/-- `Watch` table row. -/
structure Watch where
  id : Option Nat
  user_id : Str
  destination : Str
  target_price : Qv
  is_active : Bool
deriving DecidableEq

/-- The SQLite catalog store queried by the agents (rows in insertion order). -/
structure CatalogDB where
  flights : List Flight
  listings : List Listing
deriving DecidableEq

/-- SQLite `column LIKE '%pat%'` (`.contains`): case-insensitive for ASCII;
`NULL` never matches. -/
def likeContains (v : Option Str) (pat : Str) : Bool :=
  match v with
  | some s => subIn (lowerStr pat) (lowerStr s)
  | none => false

/-- Stable insertion used by `stableSort`. -/
def insertSorted (le : α → α → Bool) (x : α) : List α → List α
  | [] => [x]
  | y :: ys => if le y x then y :: insertSorted le x ys else x :: y :: ys

/-- A stable ascending sort (Python `list.sort` / `sorted` are stable, so any
stable sort computes the same list). -/
def stableSort (le : α → α → Bool) (l : List α) : List α :=
  l.foldl (fun acc x => insertSorted le x acc) []

/-- `statistics.median`: middle of the sorted list, or the mean of the two
middle elements. -/
def medianQ (l : List Qv) : Qv :=
  let s := stableSort (fun a b => a.le b) l
  let n := s.length
  if n % 2 = 1 then s.getD (n / 2) (Qv.ofNat 0)
  else ((s.getD (n / 2 - 1) (Qv.ofNat 0)).add (s.getD (n / 2) (Qv.ofNat 0))).div (Qv.ofNat 2)

/-! ### Python truthiness helpers -/

def pyTruthyS : Option Str → Bool
  | some s => !s.isEmpty
  | none => false

def pyTruthyQ : Option Qv → Bool
  | some q => !q.isZero
  | none => false

def pyTruthyN : Option Nat → Bool
  | some n => decide (n ≠ 0)
  | none => false

def pyTruthyL : Option (List Str) → Bool
  | some l => !l.isEmpty
  | none => false

/-- Python `a or b` on optional strings (`None` and `""` are falsy). -/
def pyOrS (a : Option Str) (b : Str) : Str :=
  match a with
  | some s => if s.isEmpty then b else s
  | none => b

/-- Python `str(i)` for integers. -/
def intToStr (i : Int) : Str :=
  if i < 0 then '-' :: natToStr i.natAbs else natToStr i.toNat

/-- Python `", ".join(l)`-style separator join. -/
def joinSep (sep : Str) : List Str → Str
  | [] => []
  | [x] => x
  | x :: xs => x ++ sep ++ joinSep sep xs

/-! ### `DealsAgent.get_recommendations` (deals_agent.py lines 199-310) -/

/-- Recommendation dictionary built for one flight row. -/
structure FlightRec where
  id : Option Nat
  origin : Str
  destination : Str
  price : Qv
  airline : Str
  duration : Int
  stops : Int
  departure_time : Str
  seats_left : Option Int
  is_promo : Bool
deriving DecidableEq

/-- Recommendation dictionary built for one listing row (note the literal
`"airline": "N/A"` entry, which matters to the booking dispatch). -/
structure HotelRec where
  id : Option Nat
  destination : Option Str
  price : Qv
  airline : Str
  amenities : Option Str
  is_deal : Bool
  avg_30d : Option Qv
deriving DecidableEq

inductive RecItem where
  | flight (f : FlightRec)
  | hotel (h : HotelRec)
deriving DecidableEq

def flightToRec (f : Flight) : FlightRec :=
  { id := f.id, origin := f.origin, destination := f.destination, price := f.price,
    airline := f.airline, duration := f.duration_minutes, stops := f.stops,
    departure_time := pyOrS f.departure_date (chars "N/A"),
    seats_left := f.seats_left, is_promo := f.is_promo }

def listingToRec (l : Listing) : HotelRec :=
  { id := l.id, destination := l.neighbourhood, price := l.price, airline := chars "N/A",
    amenities := l.amenities, is_deal := l.is_deal, avg_30d := l.avg_30d_price }

/-- `if destination: query.where(Flight.destination.contains(destination))`. -/
def destOKf (destination : Option Str) (f : Flight) : Bool :=
  match destination with
  | some d => if d.isEmpty then true else subIn (lowerStr d) (lowerStr f.destination)
  | none => true

/-- `if budget: query.where(Flight.price <= budget)`. -/
def budgetOKf (budget : Option Qv) (f : Flight) : Bool :=
  match budget with
  | some b => if b.isZero then true else f.price.le b
  | none => true

/-- The flight part of `get_recommendations`: exact-date query, then the
year-month fallback (destination only, no budget), then the date-free query
ordered by price. -/
def flightQuery (db : CatalogDB) (destination : Option Str) (budget : Option Qv)
    (date : Option Str) (limit : Nat) : List Flight :=
  let relaxed :=
    (stableSort (fun a b => a.price.le b.price)
      (db.flights.filter fun f => destOKf destination f && budgetOKf budget f)).take limit
  match date with
  | some d =>
    if d.isEmpty then relaxed
    else
      let tier1 := (db.flights.filter fun f =>
        destOKf destination f && budgetOKf budget f && likeContains f.departure_date d).take limit
      if !tier1.isEmpty then tier1
      else
        let tier2 :=
          if 7 ≤ d.length then
            (db.flights.filter fun f =>
              destOKf destination f && likeContains f.departure_date (d.take 7)).take limit
          else []
        if !tier2.isEmpty then tier2 else relaxed
  | none => relaxed

/-- The hotel part of `get_recommendations`: destination/budget filters,
ordered by price. -/
def hotelQuery (db : CatalogDB) (destination : Option Str) (budget : Option Qv)
    (limit : Nat) : List Listing :=
  (stableSort (fun a b => a.price.le b.price)
    (db.listings.filter fun l =>
      (match destination with
       | some d => if d.isEmpty then true else likeContains l.neighbourhood d
       | none => true) &&
      (match budget with
       | some b => if b.isZero then true else l.price.le b
       | none => true))).take limit

/-- `DealsAgent.get_recommendations`. -/
def get_recommendations (db : CatalogDB) (destination : Option Str) (budget : Option Qv)
    (category : Option Str) (date : Option Str) : List RecItem :=
  (if category = none ∨ category = some (chars "Flight") then
    (flightQuery db destination budget date
      (if category = some (chars "Flight") then 20 else 10)).map
        fun f => RecItem.flight (flightToRec f)
  else []) ++
  (if category = none ∨ category = some (chars "Hotel") then
    (hotelQuery db destination budget
      (if category = some (chars "Hotel") then 10 else 5)).map
        fun l => RecItem.hotel (listingToRec l)
  else [])

/-! ### `DealsAgent.calculate_fit_score` (deals_agent.py lines 312-348)

A lodging row with `amenities = NULL` reaches `None.lower()` in the Python
code and raises `AttributeError`; this is the `Except.error` case. -/

def calculate_fit_score (flight : FlightRec) (hotel : HotelRec) (f_med h_med : Qv)
    (budget : Option Qv) (amenities : Option (List Str)) : Except Unit Int :=
  let base : Int := 50
  let s1 := if (Qv.ofNat 0).lt f_med then (f_med.sub flight.price).div f_med else Qv.ofNat 0
  let s2 := if (Qv.ofNat 0).lt h_med then (h_med.sub hotel.price).div h_med else Qv.ofNat 0
  let savings := ((Qv.ofNat 0).add s1).add s2
  let score := base + min 30 ((savings.mul (Qv.ofNat 50)).toInt)
  match hotel.amenities with
  | none => .error ()
  | some am =>
    let ha := lowerStr am
    let score := score + (if subIn (chars "wifi") ha then 5 else 0)
    let score := score + (if subIn (chars "pool") ha then 5 else 0)
    let score := score + (if subIn (chars "breakfast") ha then 5 else 0)
    let score := score + (if subIn (chars "spa") ha then 5 else 0)
    let score := score +
      (match amenities with
       | some reqs =>
         if !reqs.isEmpty then
           let matchCount := (reqs.filter fun r => subIn (lowerStr r) ha).length
           15 * (matchCount : Int) + (if matchCount = reqs.length then 10 else 0)
         else 0
       | none => 0)
    let total := flight.price.add hotel.price
    let score := score +
      (match budget with
       | some b => if !b.isZero && total.le b then 10 else 0
       | none => 0)
    .ok (min 100 (max 10 score))

/-! ### `DealsAgent.generate_explanations` (deals_agent.py lines 350-412)

`random.sample` over the deduplicated reasons is modelled by the oracle
`pick`.  Both `hotel['amenities'] = None` and `flight['seats_left'] = None`
raise `TypeError`/`AttributeError` in the Python code (the latter at the
`seats_left < 10` comparison); the null-seats check is hoisted before the
reason list here, which is observationally equal because an exception discards
the whole result. -/

def generate_explanations (pick : List Str → List Str) (f : FlightRec) (h : HotelRec)
    (f_med h_med : Qv) (amenities : Option (List Str)) : Except Unit (List Str × List Str) :=
  let total := f.price.add h.price
  let median_total := f_med.add h_med
  match h.amenities with
  | none => .error ()
  | some am =>
    let ha := lowerStr am
    let air := lowerStr f.airline
    match f.seats_left with
    | none => .error ()
    | some seats =>
      let reasons :=
        (if (Qv.ofNat 0).lt median_total && total.lt median_total then
          let pct := (((Qv.ofNat 1).sub (total.div median_total)).mul (Qv.ofNat 100)).toInt
          if 10 ≤ pct then [intToStr pct ++ chars "% cheaper than average"] else []
        else []) ++
        (match amenities with
         | some reqs =>
           if !reqs.isEmpty then
             let matched := reqs.filter fun a => subIn (lowerStr a) ha
             if !matched.isEmpty then
               [chars "Matches your request: " ++ joinSep (chars ", ") matched]
             else []
           else []
         | none => []) ++
        (if f.stops = 0 then [chars "Direct flight - no layovers"] else []) ++
        (if subIn (chars "indigo") air || subIn (chars "airasia") air then
          [chars "Popular carrier (" ++ f.airline ++ chars ")"] else []) ++
        (if seats < 10 then [chars "High demand - limited availability"] else []) ++
        (if subIn (chars "superhost") ha then [chars "Superhost property - highly rated"] else []) ++
        (if subIn (chars "wifi") ha then [chars "Free WiFi included"] else []) ++
        (if subIn (chars "breakfast") ha then [chars "Breakfast included"] else []) ++
        (if subIn (chars "pool") ha then [chars "Pool access for relaxation"] else []) ++
        (if subIn (chars "spa") ha then [chars "Spa facilities available"] else []) ++
        (if subIn (chars "mountain") ha || subIn (chars "river") ha ||
            subIn (chars "ocean") ha then [chars "Scenic views"] else []) ++
        (if subIn (chars "villa") ha || subIn (chars "bungalow") ha then
          [chars "Private accommodation"] else [])
      let reasons := if reasons.isEmpty then [chars "Great value option"] else reasons
      let watch_out :=
        (if seats < 5 then [chars "Only " ++ intToStr seats ++ chars " seats left!"] else []) ++
        (if am.isEmpty then [chars "Basic amenities"] else [])
      .ok (pick reasons, watch_out)

/-- `DealsAgent.extract_policy_snippets` (deals_agent.py lines 414-430). -/
def extract_policy_snippets (h : HotelRec) : Except Unit (Str × Str) :=
  match h.amenities with
  | none => .error ()
  | some am =>
    let a := lowerStr am
    .ok (if subIn (chars "pet") a || subIn (chars "dog") a then chars "Pets allowed"
         else chars "No pets",
         if subIn (chars "cancel") a then chars "Free cancellation" else chars "Non-refundable")

/-! ### `DealsAgent.create_bundles` (deals_agent.py lines 432-488) -/

structure Bundle where
  idPair : Option Nat × Option Nat
  flight : FlightRec
  hotel : HotelRec
  total_price : Qv
  fit_score : Int
  why_this : List Str
  what_to_watch : List Str
  policies : Str × Str
deriving DecidableEq

/-- One iteration of the bundle cross product: budget skip, hard amenity
filter (skip when any requested amenity is missing from the lodging tags),
then score, explanation and policies. -/
def bundlePair (pick : List Str → List Str) (f_med h_med : Qv) (budget : Option Qv)
    (amenities : Option (List Str)) (f : FlightRec) (h : HotelRec) :
    Except Unit (Option Bundle) :=
  let total := f.price.add h.price
  if (match budget with
      | some b => !b.isZero && b.lt total
      | none => false) then
    .ok none
  else
    match
      (if pyTruthyL amenities then
        match h.amenities with
        | none => .error ()
        | some am =>
          .ok (((amenities.getD []).filter fun a =>
            !(subIn (lowerStr a) (lowerStr am))).isEmpty)
      else .ok true : Except Unit Bool)
    with
    | .error e => .error e
    | .ok false => .ok none
    | .ok true =>
      match calculate_fit_score f h f_med h_med budget amenities with
      | .error e => .error e
      | .ok score =>
        match generate_explanations pick f h f_med h_med amenities with
        | .error e => .error e
        | .ok expl =>
          match extract_policy_snippets h with
          | .error e => .error e
          | .ok pol =>
            .ok (some { idPair := (f.id, h.id), flight := f, hotel := h,
                        total_price := Qv.round2 total, fit_score := score,
                        why_this := expl.1, what_to_watch := expl.2, policies := pol })

def collectRow (pick : List Str → List Str) (f_med h_med : Qv) (budget : Option Qv)
    (amenities : Option (List Str)) (f : FlightRec) : List HotelRec → Except Unit (List Bundle)
  | [] => .ok []
  | h :: hs =>
    match bundlePair pick f_med h_med budget amenities f h with
    | .error e => .error e
    | .ok b? =>
      match collectRow pick f_med h_med budget amenities f hs with
      | .error e => .error e
      | .ok rest => .ok (match b? with | some b => b :: rest | none => rest)

def collectBundles (pick : List Str → List Str) (f_med h_med : Qv) (budget : Option Qv)
    (amenities : Option (List Str)) : List FlightRec → List HotelRec → Except Unit (List Bundle)
  | [], _ => .ok []
  | f :: fs, hs =>
    match collectRow pick f_med h_med budget amenities f hs with
    | .error e => .error e
    | .ok row =>
      match collectBundles pick f_med h_med budget amenities fs hs with
      | .error e => .error e
      | .ok rest => .ok (row ++ rest)

/-- `DealsAgent.create_bundles`.  The `origin` parameter is accepted and
unused, as in the source. -/
def create_bundles (db : CatalogDB) (pick : List Str → List Str)
    (destination origin date : Option Str) (budget : Option Qv)
    (amenities : Option (List Str)) : Except Unit (List Bundle) :=
  let flights := (flightQuery db destination none date 20).map flightToRec
  let hotels := (hotelQuery db destination none 10).map listingToRec
  if flights.isEmpty || hotels.isEmpty then .ok []
  else
    let f_med := medianQ (flights.map FlightRec.price)
    let h_med := medianQ (hotels.map HotelRec.price)
    let candidates_f := (stableSort (fun a b => a.price.le b.price) flights).take 5
    let candidates_h := (stableSort (fun a b => a.price.le b.price) hotels).take 5
    match collectBundles pick f_med h_med budget amenities candidates_f candidates_h with
    | .error e => .error e
    | .ok bundles => .ok ((stableSort (fun a b => b.fit_score ≤ a.fit_score) bundles).take 3)

/-! ### `DealsAgent.consume_raw_feeds` detection and the alert matcher
(deals_agent.py lines 114-173, main.py lines 81-117)

Per-event detection logic; the Python float literal `0.85` is modelled as the
exact rational `85/100`, and the division `price/avg` at `avg = 0` raises
`ZeroDivisionError` (the `Except.error` case, which kills the consumer loop). -/

structure RawEvent where
  price : Option Qv
  avg_30d_price : Option Qv
  seats_left : Option Int
  availability : Option Int
  destination : Option Str
  airline : Option Str
deriving DecidableEq

inductive DealTag where
  | pctOff (n : Int)
  | sellingFast
deriving DecidableEq

structure DealEvent where
  destination : Option Str
  price : Qv
  original_price : Qv
  tags : List DealTag
deriving DecidableEq

/-- One event of the detection stage: `price <= 0.85 * avg` classifies a
deal and attaches an integer percentage-off tag; low stock
(`seats_left < 5 or availability < 3`) attaches `Selling Fast`; a `DealEvent`
is emitted only for deals. -/
def detect_deal (e : RawEvent) : Except Unit (Option DealEvent) :=
  let price := e.price.getD (Qv.ofNat 0)
  let avg := e.avg_30d_price.getD price
  if price.le ((⟨85, 100⟩ : Qv).mul avg) then
    if avg.isZero then .error ()
    else
      let discount := (((Qv.ofNat 1).sub (price.div avg)).mul (Qv.ofNat 100)).toInt
      let scarcity := e.seats_left.getD 10 < 5 || e.availability.getD 10 < 3
      let tags := [DealTag.pctOff discount] ++ (if scarcity then [DealTag.sellingFast] else [])
      .ok (some { destination := e.destination, price := price, original_price := avg,
                  tags := tags })
  else .ok none

/-- `consume_and_notify` watch matching: active watches on the same
destination with `target_price >= price` receive the broadcast alert. -/
def match_watches (e : DealEvent) (watches : List Watch) : List Watch :=
  watches.filter fun w =>
    (match e.destination with
     | some d => w.destination == d
     | none => false) &&
    w.is_active && e.price.le w.target_price

/-! ### Concrete sample data for the deal-pipeline claims -/

def sampleFlightRec : FlightRec :=
  { id := some 1, origin := chars "Delhi", destination := chars "Goa",
    price := Qv.ofNat 3000, airline := chars "IndiGo", duration := 150, stops := 0,
    departure_time := chars "2025-12-25", seats_left := some 3, is_promo := true }

def sampleHotelRec : HotelRec :=
  { id := some 2, destination := some (chars "Goa"), price := Qv.ofNat 2000,
    airline := chars "N/A", amenities := some (chars "WiFi,Pool,Pet friendly"),
    is_deal := true, avg_30d := some (Qv.ofNat 2500) }

def c7flight : Flight :=
  { id := some 1, origin := chars "Delhi", destination := chars "Goa",
    airline := chars "IndiGo", stops := 0, duration_minutes := 150,
    price := Qv.ofNat 5000, departure_date := some (chars "2025-12-01"),
    seats_left := some 9, is_promo := false }

def c7db : CatalogDB := { flights := [c7flight], listings := [] }

def c9event : RawEvent :=
  { price := some (Qv.ofNat 100), avg_30d_price := some (Qv.ofNat 150),
    seats_left := some 3, availability := some 5,
    destination := some (chars "Goa"), airline := some (chars "IndiGo") }

def c9watch : Watch :=
  { id := some 7, user_id := chars "u1", destination := chars "Goa",
    target_price := Qv.ofNat 120, is_active := true }

/-- Decidable equality on `Except`, so that concrete runs of the fallible
embeddings can be checked by `decide`. -/
instance {E A : Type} [DecidableEq E] [DecidableEq A] : DecidableEq (Except E A) := fun a b =>
  match a, b with
  | .error e1, .error e2 => decidable_of_iff (e1 = e2) (by simp)
  | .error _, .ok _ => isFalse fun h => Except.noConfusion h
  | .ok _, .error _ => isFalse fun h => Except.noConfusion h
  | .ok v1, .ok v2 => decidable_of_iff (v1 = v2) (by simp)

def c2flight : Flight :=
  { id := some 3, origin := chars "Delhi", destination := chars "Goa",
    airline := chars "IndiGo", stops := 0, duration_minutes := 150,
    price := Qv.ofNat 4000, departure_date := some (chars "2025-12-25"),
    seats_left := some 9, is_promo := false }

def c2listing : Listing :=
  { id := some 4, listing_id := chars "L1", date := chars "2025-12-25",
    price := Qv.ofNat 2000, availability := 4,
    amenities := some (chars "WiFi,Pool"), neighbourhood := some (chars "Goa"),
    avg_30d_price := some (Qv.ofNat 2500), is_deal := false, deal_score := none }

def c2db : CatalogDB := { flights := [c2flight], listings := [c2listing] }

def emptyBundle : Bundle :=
  { idPair := (none, none), flight := sampleFlightRec, hotel := sampleHotelRec,
    total_price := Qv.ofNat 0, fit_score := 0, why_this := [], what_to_watch := [],
    policies := (chars "", chars "") }

/-- A concrete `create_bundles` run (identity sampling oracle, one flight and
one pool lodging in Goa, requested amenity "pool"). -/
def c2bs : List Bundle :=
  (create_bundles c2db (fun l => l) (some (chars "Goa")) none none none
    (some [chars "pool"])).toOption.getD []

def c2b : Bundle := c2bs.headD emptyBundle

/-! ### `ConciergeAgent.process_message` (concierge_agent.py lines 321-724)

The agent's ambient dependencies are an `Env`: the catalog store, the
explanation sampling oracle, the current-date oracle for `normalize_date`,
and the success of the two external booking calls (whose bodies only do
HTTP/DB side effects wrapped in try/except at the call sites). -/

inductive Slot where
  | destination
  | dates
  | check_in
  | check_out
  | origin
  | travelers
deriving DecidableEq

/-- `self.current_context`. -/
structure Ctx where
  destination : Option Str
  origin : Option Str
  budget : Option Qv
  dates : Option Str
  check_in : Option Str
  check_out : Option Str
  travelers : Option Nat
  nights : Option Nat
  amenities : Option (List Str)
deriving DecidableEq

/-- An entry of `self.last_recommendations` (a flight/hotel dict or a bundle
dict). -/
inductive RecEntry where
  | item (r : RecItem)
  | bundle (b : Bundle)
deriving DecidableEq

structure AgentState where
  ctx : Ctx
  awaiting_slot : Option Slot
  last_recommendations : List RecEntry
deriving DecidableEq

structure Env where
  db : CatalogDB
  pick : List Str → List Str
  rel : Nat → Option PyDate
  bookFlightOk : Bool
  bookHotelOk : Bool

inductive Effect where
  | bookFlightAttempt
  | bookHotelAttempt
  | setWatch (destination : Str) (target : Qv)
deriving DecidableEq

/-- One constructor per return site of `process_message` (payloads carry the
data interpolated into the reply; `crashed` marks an uncaught exception
propagating out of the turn, with the instance state already mutated). -/
inductive Resp where
  | askWhereTo
  | askWhen (dest : Str) (hotel : Bool)
  | askCheckOut
  | askOrigin
  | askTravelers
  | bundleNoDest
  | bundleList (bs : List Bundle)
  | bundleEmpty (dest : Str)
  | showFlightsNoDest
  | showFlightsEmpty (dest : Str)
  | showFlightsList (fs : List RecItem)
  | refineNoDest
  | refineBundles (bs : List Bundle)
  | refineEmpty (target dest : Str)
  | refineList (target : Str) (rs : List RecItem)
  | watchAskCity
  | watchSet (dest : Str) (target : Qv)
  | bookBundleConfirmed
  | bookBundleFailed
  | bookFlightConfirmed
  | bookFlightFailed
  | bookHotelConfirmed
  | bookHotelFailed
  | missingDatePrompt (dest : Str)
  | whereTo
  | waitAck (dest dates : Str)
  | pleaseWait
  | crashed
deriving DecidableEq

structure TurnResult where
  resp : Resp
  state : AgentState
  effects : List Effect
deriving DecidableEq

/-- `datetime.strptime(s, "%Y-%m-%d")` month field (`1[0-2]|0[1-9]|[1-9]`). -/
def parseMonth2 : Str → Option (Nat × Str)
  | c1 :: c2 :: rest =>
    if c1 = '1' && (c2 = '0' || c2 = '1' || c2 = '2') then some (natOfDigits [c1, c2], rest)
    else if c1 = '0' && isDigitC c2 && c2 ≠ '0' then some (digitVal c2, rest)
    else if isDigitC c1 && c1 ≠ '0' then some (digitVal c1, c2 :: rest)
    else none
  | [c1] => if isDigitC c1 && c1 ≠ '0' then some (digitVal c1, []) else none
  | [] => none

/-- `strptime` day field (`3[01]|[12]\d|0[1-9]|[1-9]`). -/
def parseDay2 : Str → Option (Nat × Str)
  | c1 :: c2 :: rest =>
    if c1 = '3' && (c2 = '0' || c2 = '1') then some (natOfDigits [c1, c2], rest)
    else if (c1 = '1' || c1 = '2') && isDigitC c2 then some (natOfDigits [c1, c2], rest)
    else if c1 = '0' && isDigitC c2 && c2 ≠ '0' then some (digitVal c2, rest)
    else if isDigitC c1 && c1 ≠ '0' then some (digitVal c1, c2 :: rest)
    else none
  | [c1] => if isDigitC c1 && c1 ≠ '0' then some (digitVal c1, []) else none
  | [] => none

def isLeap (y : Nat) : Bool := (y % 4 == 0 && !(y % 100 == 0)) || y % 400 == 0

def daysInMonth (y m : Nat) : Nat :=
  if m = 2 then (if isLeap y then 29 else 28)
  else if m = 4 ∨ m = 6 ∨ m = 9 ∨ m = 11 then 30
  else 31

/-- `datetime.strptime(s, "%Y-%m-%d")`: four-digit year, one/two-digit month
and day, whole string consumed, and the day valid for the month. -/
def parseYMD (s : Str) : Option PyDate :=
  match s with
  | y1 :: y2 :: y3 :: y4 :: '-' :: rest1 =>
    if isDigitC y1 && isDigitC y2 && isDigitC y3 && isDigitC y4 then
      match parseMonth2 rest1 with
      | some (m, rest2) =>
        match rest2 with
        | '-' :: rest3 =>
          match parseDay2 rest3 with
          | some (d, []) =>
            let y := natOfDigits [y1, y2, y3, y4]
            if 1 ≤ y && 1 ≤ d && d ≤ daysInMonth y m then some ⟨y, m, d⟩ else none
          | _ => none
        | _ => none
      | none => none
    else none
  | _ => none

/-- `d + timedelta(days=n)`; `none` on overflow past year 9999
(`OverflowError`). -/
def addDaysGo : PyDate → Nat → Option PyDate
  | d, 0 => some d
  | ⟨y, m, dd⟩, Nat.succ n =>
    if dd < daysInMonth y m then addDaysGo ⟨y, m, dd + 1⟩ n
    else if m < 12 then addDaysGo ⟨y, m + 1, 1⟩ n
    else if y < 9999 then addDaysGo ⟨y + 1, 1, 1⟩ n
    else none

/-- The guarded check-out computation of the "N nights" answer: parse the
check-in, add the nights, format; any exception leaves check_out unset. -/
def checkOutFromNights (curr_in : Str) (nights : Nat) : Option Str :=
  match parseYMD curr_in with
  | some d => (addDaysGo d nights).map fmtDate
  | none => none

/-- Section 0 of `process_message` (lines 325-398): contextual slot filling.
Each branch requires the awaited slot's context field to still be falsy and
always clears `awaiting_slot`. -/
def applySlotFill (env : Env) (message : Str) (ex : Extracted) (s : AgentState) :
    AgentState :=
  match s.awaiting_slot with
  | some Slot.destination =>
    if !(pyTruthyS s.ctx.destination) then
      { s with
        ctx := { s.ctx with
          destination := some (pyOrS ex.destination (titleStr (stripStr message))) },
        awaiting_slot := none }
    else s
  | some Slot.dates =>
    if !(pyTruthyS s.ctx.dates) then
      { s with
        ctx := { s.ctx with dates := some (pyOrS ex.dates (stripStr message)) },
        awaiting_slot := none }
    else s
  | some Slot.check_in =>
    if !(pyTruthyS s.ctx.check_in) then
      { s with
        ctx := { s.ctx with
          check_in := normalize_date env.rel (some (pyOrS ex.dates (stripStr message))) },
        awaiting_slot := none }
    else s
  | some Slot.check_out =>
    if !(pyTruthyS s.ctx.check_out) then
      let ctx2 :=
        if subIn (chars "night") (lowerStr message) then
          match (firstDigitRun message).map natOfDigits with
          | some nights =>
            let ctx1 :=
              if pyTruthyS s.ctx.check_in then
                match checkOutFromNights (s.ctx.check_in.getD []) nights with
                | some co => { s.ctx with check_out := some co }
                | none => s.ctx
              else s.ctx
            { ctx1 with nights := some nights }
          | none => s.ctx
        else
          { s.ctx with
            check_out := normalize_date env.rel (some (pyOrS ex.dates (stripStr message))) }
      { s with ctx := ctx2, awaiting_slot := none }
    else s
  | some Slot.origin =>
    if !(pyTruthyS s.ctx.origin) then
      let candidate := pyOrS ex.origin (pyOrS ex.destination (titleStr (stripStr message)))
      let ctx2 :=
        if pyTruthyS s.ctx.destination &&
            lowerStr candidate == lowerStr (s.ctx.destination.getD []) then s.ctx
        else { s.ctx with origin := some candidate }
      { s with ctx := ctx2, awaiting_slot := none }
    else s
  | some Slot.travelers =>
    if !(pyTruthyN s.ctx.travelers) then
      let ctx2 :=
        if pyTruthyN ex.travelers then { s.ctx with travelers := ex.travelers }
        else
          match firstDigitRun message with
          | some run => { s.ctx with travelers := some (natOfDigits run) }
          | none =>
            if subIn (chars "me") (lowerStr message) then { s.ctx with travelers := some 1 }
            else s.ctx
      { s with ctx := ctx2, awaiting_slot := none }
    else s
  | none => s

/-- Lines 400-417: merge the extracted slots into the context.  Each update
touches its own field only, so the sequential Python assignments are written
as one record (destination is not overwritten when already set; dates only
when the extracted date has a month token or a digit). -/
def applyMerges (ex : Extracted) (ctx : Ctx) : Ctx :=
  { destination :=
      if pyTruthyS ex.destination && !(pyTruthyS ctx.destination) then ex.destination
      else ctx.destination,
    origin := if pyTruthyS ex.origin then ex.origin else ctx.origin,
    budget := if pyTruthyQ ex.budget then ex.budget else ctx.budget,
    dates :=
      match ex.dates with
      | some ds =>
        if !ds.isEmpty && (anyMonthToken (lowerStr ds) || (lowerStr ds).any isDigitC) then
          some ds
        else ctx.dates
      | none => ctx.dates,
    check_in := ctx.check_in,
    check_out := ctx.check_out,
    travelers := if pyTruthyN ex.travelers then ex.travelers else ctx.travelers,
    nights := if pyTruthyN ex.nights then ex.nights else ctx.nights,
    amenities := if pyTruthyL ex.amenities then ex.amenities else ctx.amenities }

/-- Line 425: `is_hotel_flow` (note `check_in is not None`, not truthiness). -/
def isHotelFlow (message : Str) (ctx : Ctx) : Bool :=
  subIn (chars "hotel") (lowerStr message) || ctx.check_in.isSome || pyTruthyL ctx.amenities

/-- Lines 431-473: the slot-filling gate for search/refine with no cached
recommendations; `some` is an early return. -/
def slotGate (ex : Extracted) (hotelFlow : Bool) (s : AgentState) :
    Option (Resp × AgentState) :=
  if (ex.intent == chars "search" || ex.intent == chars "refine") &&
      s.last_recommendations.isEmpty then
    if !(pyTruthyS s.ctx.destination) then
      some (Resp.askWhereTo, { s with awaiting_slot := some Slot.destination })
    else if !(pyTruthyS s.ctx.dates) && !(pyTruthyS s.ctx.check_in) then
      some (Resp.askWhen (s.ctx.destination.getD []) hotelFlow,
        { s with awaiting_slot := some (if hotelFlow then Slot.check_in else Slot.dates) })
    else if hotelFlow && pyTruthyS s.ctx.check_in && !(pyTruthyS s.ctx.check_out) then
      some (Resp.askCheckOut, { s with awaiting_slot := some Slot.check_out })
    else if !hotelFlow && !(pyTruthyS s.ctx.origin) then
      some (Resp.askOrigin, { s with awaiting_slot := some Slot.origin })
    else if !(pyTruthyN s.ctx.travelers) then
      some (Resp.askTravelers, { s with awaiting_slot := some Slot.travelers })
    else none
  else none

/-- Flight-list display (lines 530-536, 606-609): `seats_left < 10` raises
`TypeError` on a null value. -/
def flightListCrash (rs : List RecItem) : Bool :=
  (rs.take 10).any fun r =>
    match r with
    | .flight f => f.seats_left.isNone
    | .hotel _ => false

/-- Hotel-list display (lines 597-605): `tags.lower()` raises on a null
amenity value when matches are highlighted. -/
def hotelListCrash (amenities : Option (List Str)) (rs : List RecItem) : Bool :=
  pyTruthyL amenities &&
    (rs.take 10).any fun r =>
      match r with
      | .hotel h => h.amenities.isNone
      | .flight _ => false

def recTypeIsFlight : RecItem → Bool
  | .flight _ => true
  | .hotel _ => false

def recTypeIsHotel : RecItem → Bool
  | .flight _ => false
  | .hotel _ => true

def recAirline : RecItem → Str
  | .flight f => f.airline
  | .hotel h => h.airline

def defaultRecEntry : RecEntry := RecEntry.item (RecItem.flight sampleFlightRec)

/-- Lines 712-724: the terminal fallbacks (missing-date prompt, where-to
prompt, deferred-search acknowledgement, and the final "Please wait..."). -/
def fallbackResp (message : Str) (s : AgentState) : TurnResult :=
  if !(pyTruthyS s.ctx.dates) then
    if pyTruthyS s.ctx.destination then
      { resp := Resp.missingDatePrompt (s.ctx.destination.getD []), state := s, effects := [] }
    else { resp := Resp.whereTo, state := s, effects := [] }
  else if !(subIn (chars "wait") (lowerStr message)) then
    { resp := Resp.waitAck (s.ctx.destination.getD []) (s.ctx.dates.getD []), state := s,
      effects := [] }
  else { resp := Resp.pleaseWait, state := s, effects := [] }

/-- Lines 632-724: the booking branch (guarded by a non-empty recommendation
cache) followed by the terminal fallbacks.  Hotel recommendation dicts carry
`airline = "N/A"`, so the truthy-airline disjunct routes them down the
flight-booking path. -/
def bookOrFallback (env : Env) (message : Str) (ex : Extracted) (s : AgentState) :
    TurnResult :=
  if ex.intent == chars "book" && !s.last_recommendations.isEmpty then
    let recs := s.last_recommendations
    let selected :=
      match ex.index with
      | some n =>
        if n ≠ 0 then
          if n - 1 < recs.length then recs.getD (n - 1) defaultRecEntry
          else recs.headD defaultRecEntry
        else recs.headD defaultRecEntry
      | none => recs.headD defaultRecEntry
    match selected with
    | RecEntry.bundle _ =>
      let effects := Effect.bookFlightAttempt ::
        (if env.bookFlightOk then [Effect.bookHotelAttempt] else [])
      if env.bookFlightOk && env.bookHotelOk then
        { resp := Resp.bookBundleConfirmed, state := s, effects := effects }
      else { resp := Resp.bookBundleFailed, state := s, effects := effects }
    | RecEntry.item r =>
      if recTypeIsFlight r || !(recAirline r).isEmpty then
        if env.bookFlightOk then
          { resp := Resp.bookFlightConfirmed, state := s, effects := [Effect.bookFlightAttempt] }
        else
          { resp := Resp.bookFlightFailed, state := s, effects := [Effect.bookFlightAttempt] }
      else if recTypeIsHotel r then
        if env.bookHotelOk then
          { resp := Resp.bookHotelConfirmed, state := s, effects := [Effect.bookHotelAttempt] }
        else
          { resp := Resp.bookHotelFailed, state := s, effects := [Effect.bookHotelAttempt] }
      else fallbackResp message s
  else fallbackResp message s

/-- Lines 574-611: the standard (non-bundle) refine search. -/
def refineStandard (env : Env) (message : Str) (s : AgentState) (dest : Str) : TurnResult :=
  let amenities := s.ctx.amenities
  let target : Str :=
    if subIn (chars "hotel") (lowerStr message) || pyTruthyL amenities then chars "Hotel"
    else chars "Flight"
  let search_date := normalize_date env.rel s.ctx.dates
  let dateArg : Option Str :=
    match search_date with
    | some sd => if sd.isEmpty then s.ctx.dates else some sd
    | none => s.ctx.dates
  let new_recs := get_recommendations env.db (some dest) s.ctx.budget (some target) dateArg
  let s5 := { s with last_recommendations := new_recs.map RecEntry.item }
  if new_recs.isEmpty then { resp := Resp.refineEmpty target dest, state := s5, effects := [] }
  else if (if target == chars "Hotel" then hotelListCrash amenities new_recs
           else flightListCrash new_recs) then
    { resp := Resp.crashed, state := s5, effects := [] }
  else { resp := Resp.refineList target new_recs, state := s5, effects := [] }

/-- Lines 480-724: the per-intent dispatch after the gate. -/
def dispatchIntents (env : Env) (message : Str) (ex : Extracted) (s : AgentState) :
    TurnResult :=
  if ex.intent == chars "bundle" then
    if !(pyTruthyS s.ctx.destination) then
      { resp := Resp.bundleNoDest, state := s, effects := [] }
    else
      let dest := s.ctx.destination.getD []
      match create_bundles env.db env.pick (some dest) none s.ctx.dates s.ctx.budget
          s.ctx.amenities with
      | .error _ => { resp := Resp.crashed, state := s, effects := [] }
      | .ok bs =>
        if !bs.isEmpty then
          { resp := Resp.bundleList bs,
            state := { s with last_recommendations := bs.map RecEntry.bundle }, effects := [] }
        else { resp := Resp.bundleEmpty dest, state := s, effects := [] }
  else if ex.intent == chars "show_flights" then
    if !(pyTruthyS s.ctx.destination) then
      { resp := Resp.showFlightsNoDest, state := s, effects := [] }
    else
      let dest := s.ctx.destination.getD []
      let flights := get_recommendations env.db (some dest) s.ctx.budget
        (some (chars "Flight")) s.ctx.dates
      let s5 := { s with last_recommendations := flights.map RecEntry.item }
      if flights.isEmpty then { resp := Resp.showFlightsEmpty dest, state := s5, effects := [] }
      else if flightListCrash flights then { resp := Resp.crashed, state := s5, effects := [] }
      else { resp := Resp.showFlightsList flights, state := s5, effects := [] }
  else if ex.intent == chars "refine" then
    if !(pyTruthyS s.ctx.destination) then
      { resp := Resp.refineNoDest, state := s, effects := [] }
    else
      let dest := s.ctx.destination.getD []
      let isBundle := subIn (chars "bundle") (lowerStr message) ||
        (pyTruthyL s.ctx.amenities && !(subIn (chars "flight") (lowerStr message)))
      if isBundle then
        match create_bundles env.db env.pick (some dest) none s.ctx.dates s.ctx.budget
            s.ctx.amenities with
        | .error _ => { resp := Resp.crashed, state := s, effects := [] }
        | .ok bs =>
          if !bs.isEmpty then
            if bs.any fun b => b.why_this.isEmpty then
              { resp := Resp.crashed,
                state := { s with last_recommendations := bs.map RecEntry.bundle },
                effects := [] }
            else
              { resp := Resp.refineBundles bs,
                state := { s with last_recommendations := bs.map RecEntry.bundle },
                effects := [] }
          else refineStandard env message s dest
      else refineStandard env message s dest
  else if ex.intent == chars "watch" then
    if !(pyTruthyS s.ctx.destination) then
      { resp := Resp.watchAskCity, state := s, effects := [] }
    else
      let dest := s.ctx.destination.getD []
      let target :=
        match s.ctx.budget with
        | some b => if b.isZero then Qv.ofNat 2000 else b
        | none => Qv.ofNat 2000
      { resp := Resp.watchSet dest target, state := s, effects := [Effect.setWatch dest target] }
  else bookOrFallback env message ex s

/-- `ConciergeAgent.process_message`. -/
def process_message (env : Env) (s0 : AgentState) (message : Str) : TurnResult :=
  let ex := extract message
  let s1 := applySlotFill env message ex s0
  let s2 := { s1 with ctx := applyMerges ex s1.ctx }
  match slotGate ex (isHotelFlow message s2.ctx) s2 with
  | some rs => { resp := rs.1, state := rs.2, effects := [] }
  | none =>
    let s4 :=
      if ex.origin == some (chars "Skip") then
        { s2 with ctx := { s2.ctx with origin := some (chars "Unknown") } }
      else s2
    dispatchIntents env message ex s4

/-- The slot-field truthiness corresponding to an awaited slot. -/
def slotField (sl : Slot) (ctx : Ctx) : Bool :=
  match sl with
  | .destination => pyTruthyS ctx.destination
  | .dates => pyTruthyS ctx.dates
  | .check_in => pyTruthyS ctx.check_in
  | .check_out => pyTruthyS ctx.check_out
  | .origin => pyTruthyS ctx.origin
  | .travelers => pyTruthyN ctx.travelers

/-- The C8 invariant: a pending slot implies its context field is unset. -/
def SlotInv (s : AgentState) : Prop :=
  ∀ sl, s.awaiting_slot = some sl → slotField sl s.ctx = false

def sampleEnv : Env :=
  { db := c2db, pick := fun l => l, rel := fun _ => none,
    bookFlightOk := true, bookHotelOk := true }

def c10state : AgentState :=
  { ctx := { destination := some (chars "Goa"), origin := none, budget := none,
             dates := some (chars "2025-12-25"), check_in := none, check_out := none,
             travelers := none, nights := none, amenities := none },
    awaiting_slot := none, last_recommendations := [] }

def c6state : AgentState :=
  { ctx := { destination := some (chars "Mumbai"), origin := none, budget := none,
             dates := some (chars "2025-12-25"), check_in := none, check_out := none,
             travelers := none, nights := none, amenities := none },
    awaiting_slot := some Slot.origin, last_recommendations := [] }

def c8state : AgentState :=
  { ctx := { destination := some (chars "Goa"), origin := none, budget := none,
             dates := none, check_in := none, check_out := none,
             travelers := none, nights := none, amenities := none },
    awaiting_slot := some Slot.dates, last_recommendations := [] }

/-! ## Theorems -/

/-! ### String-scanning lemmas -/

theorem startsW_iff : ∀ p s : Str, startsW p s = true ↔ p <+: s
  | [], s => by simp [startsW]
  | p :: ps, [] => by simp [startsW]
  | p :: ps, c :: cs => by
    simp only [startsW, Bool.and_eq_true, decide_eq_true_eq, List.cons_prefix_cons]
    exact and_congr Iff.rfl (startsW_iff ps cs)

theorem infix_cons_split {p : Str} {c : Char} {cs : Str} :
    p <:+: (c :: cs) ↔ p <+: (c :: cs) ∨ p <:+: cs := by
  constructor
  · rintro ⟨s, t, h⟩
    cases s with
    | nil => exact Or.inl ⟨t, by simpa using h⟩
    | cons x xs =>
      right
      refine ⟨xs, t, ?_⟩
      have := h
      simp only [List.cons_append] at this
      exact (List.cons.injEq .. ▸ this).2
  · rintro (h | ⟨s, t, h⟩)
    · exact h.isInfix
    · exact ⟨c :: s, t, by simp [h]⟩

theorem subIn_iff (p : Str) : ∀ s : Str, subIn p s = true ↔ p <:+: s
  | [] => by
    simp [subIn, startsW_iff]
  | c :: cs => by
    simp only [subIn, Bool.or_eq_true, startsW_iff, subIn_iff p cs]
    exact (infix_cons_split).symm

theorem subIn_mem {p s : Str} {c : Char} (h : subIn p s = true) (hc : c ∈ p) : c ∈ s :=
  ((subIn_iff p s).1 h).subset hc

theorem subIn_trans {a b c : Str} (h1 : subIn a b = true) (h2 : subIn b c = true) :
    subIn a c = true :=
  (subIn_iff a c).2 (((subIn_iff a b).1 h1).trans ((subIn_iff b c).1 h2))

theorem infix_imp_subIn {a b : Str} (h : a <:+: b) : subIn a b = true :=
  (subIn_iff a b).2 h

/-! ### Character-class lemmas -/

theorem ddChar_ne {c : Char} (h : ddChar c) (x : Char) (hx : isLowerC x = true) : c ≠ x := by
  intro he
  subst he
  rcases h with h | h
  · simp [isDigitC] at h
    simp [isLowerC] at hx
    omega
  · subst h
    simp [isLowerC] at hx

theorem ddChar_not_lower {c : Char} (h : ddChar c) : isLowerC c = false := by
  cases hl : isLowerC c
  · rfl
  · exact absurd rfl (ddChar_ne h c hl)

theorem ddChar_not_upper {c : Char} (h : ddChar c) : isUpperC c = false := by
  rcases h with h | h
  · simp [isDigitC] at h
    simp [isUpperC]
    omega
  · subst h
    decide

theorem ddChar_lowerC {c : Char} (h : ddChar c) : lowerC c = c := by
  unfold lowerC
  simp [ddChar_not_upper h]

theorem isOrdPair_false_of_dd {a : Char} (h : ddChar a) (b : Char) : isOrdPair a b = false := by
  have h1 := ddChar_ne h 's' (by decide)
  have h2 := ddChar_ne h 'n' (by decide)
  have h3 := ddChar_ne h 'r' (by decide)
  have h4 := ddChar_ne h 't' (by decide)
  simp [isOrdPair, h1, h2, h3, h4]

theorem lowerStr_dd {s : Str} (h : ∀ c ∈ s, ddChar c) : lowerStr s = s := by
  induction s with
  | nil => rfl
  | cons c cs ih =>
    simp only [lowerStr, List.map_cons]
    rw [ddChar_lowerC (h c (by simp))]
    have := ih fun x hx => h x (by simp [hx])
    simp only [lowerStr] at this
    rw [this]

theorem stripOrdinals_dd : ∀ s : Str, (∀ c ∈ s, ddChar c) → stripOrdinals s = s := by
  intro s
  induction s using stripOrdinals.induct with
  | case1 => intro _; rfl
  | case2 => intro _; rfl
  | case3 => intro _; rfl
  | case4 c a b rest hif ih =>
    intro h
    exact absurd hif (by simp [isOrdPair_false_of_dd (h a (by simp)) b])
  | case5 c a b rest hif ih =>
    intro h
    simp only [stripOrdinals, if_neg hif]
    rw [ih fun x hx => h x (by simp at hx ⊢; tauto)]

theorem digitVal_le {c : Char} (h : isDigitC c = true) : digitVal c ≤ 9 := by
  simp [isDigitC] at h
  simp [digitVal]
  omega

theorem digitC_digit {n : Nat} (h : n < 10) : isDigitC (digitC n) = true := by
  interval_cases n <;> decide

theorem digitC_dd {n : Nat} (h : n < 10) : ddChar (digitC n) := Or.inl (digitC_digit h)

/-! ### Digit-printer lemmas -/

theorem natToStrAux_digits : ∀ (fuel n : Nat), ∀ c ∈ natToStrAux fuel n, isDigitC c = true := by
  intro fuel
  induction fuel with
  | zero => intro n c hc; simp [natToStrAux] at hc
  | succ f ih =>
    intro n c hc
    simp only [natToStrAux] at hc
    split at hc
    · next h => simp at hc; subst hc; exact digitC_digit h
    · next h =>
      simp only [List.mem_append, List.mem_singleton] at hc
      rcases hc with hc | hc
      · exact ih _ c hc
      · subst hc; exact digitC_digit (by omega)

theorem natToStr_digits {n : Nat} : ∀ c ∈ natToStr n, isDigitC c = true :=
  natToStrAux_digits (n + 1) n

theorem natToStrAux_fuel : ∀ (n f1 f2 : Nat), n < f1 → n < f2 →
    natToStrAux f1 n = natToStrAux f2 n := by
  intro n
  induction n using Nat.strong_induction_on with
  | _ n ih =>
    intro f1 f2 h1 h2
    cases f1 with
    | zero => omega
    | succ g1 =>
      cases f2 with
      | zero => omega
      | succ g2 =>
        simp only [natToStrAux]
        split
        · rfl
        · next h =>
          rw [ih (n / 10) (by omega) g1 g2 (by omega) (by omega)]

theorem natToStr_small {n : Nat} (h : n < 10) : natToStr n = [digitC n] := by
  simp [natToStr, natToStrAux, h]

theorem natToStr_step {n : Nat} (h : 10 ≤ n) :
    natToStr n = natToStr (n / 10) ++ [digitC (n % 10)] := by
  show natToStrAux (n + 1) n = _
  simp only [natToStrAux, if_neg (by omega : ¬ n < 10)]
  rw [natToStrAux_fuel (n / 10) n (n / 10 + 1) (by omega) (by omega)]
  rfl

theorem natToStr_len3 {n : Nat} (h : n < 1000) : (natToStr n).length ≤ 3 := by
  by_cases h1 : n < 10
  · simp [natToStr_small h1]
  · rw [natToStr_step (by omega)]
    by_cases h2 : n / 10 < 10
    · simp [natToStr_small h2]
    · rw [natToStr_step (by omega)]
      have h3 : n / 10 / 10 < 10 := by omega
      simp [natToStr_small h3]

theorem natToStr_ne_nil {n : Nat} : natToStr n ≠ [] := by
  by_cases h : n < 10
  · simp [natToStr_small h]
  · rw [natToStr_step (by omega)]
    simp

theorem natToStr_four {y : Nat} (h1 : 1000 ≤ y) (h2 : y ≤ 9999) :
    natToStr y =
      [digitC (y / 1000), digitC (y / 100 % 10), digitC (y / 10 % 10), digitC (y % 10)] := by
  rw [natToStr_step (by omega)]
  rw [natToStr_step (by omega : 10 ≤ y / 10)]
  rw [natToStr_step (by omega : 10 ≤ y / 10 / 10)]
  rw [natToStr_small (by omega : y / 10 / 10 / 10 < 10)]
  have e1 : y / 10 / 10 / 10 = y / 1000 := by omega
  have e2 : y / 10 / 10 % 10 = y / 100 % 10 := by omega
  have e3 : y / 10 % 10 = y / 10 % 10 := rfl
  rw [e1, e2]
  simp

theorem pad2_eq {m : Nat} (h : m < 100) : pad2 m = [digitC (m / 10), digitC (m % 10)] := by
  simp [pad2, h]

theorem pad4_eq {m : Nat} (h : m < 10000) :
    pad4 m = [digitC (m / 1000), digitC (m / 100 % 10), digitC (m / 10 % 10), digitC (m % 10)] := by
  simp [pad4, h]

/-! ### Lemmas about the date-shape tests -/

theorem matchesYMD_len {s : Str} (h : matchesYMD s = true) : 10 ≤ s.length := by
  rcases s with _|⟨a, _|⟨b, _|⟨c, _|⟨d, _|⟨e, _|⟨f, _|⟨g, _|⟨i, _|⟨j, _|⟨k, t⟩⟩⟩⟩⟩⟩⟩⟩⟩⟩ <;>
    first
      | exact absurd h Bool.false_ne_true
      | (simp [List.length_cons]; try omega)

theorem hasDDD_cons {l : Str} (x : Char) (h : hasDigitDashDigit l = true) :
    hasDigitDashDigit (x :: l) = true := by
  rcases l with _ | ⟨a, _ | ⟨b, _ | ⟨c, t⟩⟩⟩
  · exact absurd h (by simp [hasDigitDashDigit])
  · exact absurd h (by simp [hasDigitDashDigit])
  · exact absurd h (by simp [hasDigitDashDigit])
  · have he : hasDigitDashDigit (x :: a :: b :: c :: t) =
        ((isDigitC x && (a = '-' || a = '/') && isDigitC b) ||
          hasDigitDashDigit (a :: b :: c :: t)) := rfl
    rw [he, h, Bool.or_true]

theorem hasDDD_append (s t : Str) (h : hasDigitDashDigit t = true) :
    hasDigitDashDigit (s ++ t) = true := by
  induction s with
  | nil => simpa using h
  | cons x xs ih => exact hasDDD_cons x ih

theorem hasDDD_triple {x y z : Char} (r : Str) (hx : isDigitC x = true)
    (hy : y = '-' ∨ y = '/') (hz : isDigitC z = true) :
    hasDigitDashDigit (x :: y :: z :: r) = true := by
  have he : hasDigitDashDigit (x :: y :: z :: r) =
      ((isDigitC x && (y = '-' || y = '/') && isDigitC z) ||
        hasDigitDashDigit (y :: z :: r)) := rfl
  rw [he, hx, hz]
  rcases hy with h | h <;> simp [h]

theorem hasDDD_of_matchesYMD {s : Str} (h : matchesYMD s = true) :
    hasDigitDashDigit s = true := by
  rcases s with _|⟨a, _|⟨b, _|⟨c, _|⟨d, _|⟨e, _|⟨f, _|⟨g, _|⟨i, _|⟨j, _|⟨k, t⟩⟩⟩⟩⟩⟩⟩⟩⟩⟩ <;>
    try exact absurd h Bool.false_ne_true
  simp only [matchesYMD, Bool.and_eq_true, decide_eq_true_eq] at h
  obtain ⟨⟨⟨⟨⟨⟨⟨⟨⟨h1, h2⟩, h3⟩, h4⟩, h5⟩, h6⟩, h7⟩, h8⟩, h9⟩, h10⟩ := h
  have he : (a :: b :: c :: d :: e :: f :: g :: i :: j :: k :: t : Str) =
      [a, b, c] ++ (d :: e :: f :: g :: i :: j :: k :: t) := rfl
  rw [he]
  apply hasDDD_append
  exact hasDDD_triple _ h4 (Or.inl h5) h6

/-! ### Lemmas about the formatted outputs -/

theorem fmtYMD_dd {y m d : Nat} (hm : m < 100) (hd : d < 100) :
    ∀ c ∈ fmtYMD y m d, ddChar c := by
  intro c hc
  have hdash : chars "-" = ['-'] := rfl
  rw [fmtYMD, pad2_eq hm, pad2_eq hd, hdash] at hc
  simp only [List.append_assoc, List.mem_append, List.mem_cons, List.not_mem_nil,
    or_false] at hc
  rcases hc with hc | hc | (hc | hc) | hc | (hc | hc)
  · exact Or.inl (natToStr_digits c hc)
  · subst hc; exact Or.inr rfl
  · subst hc; exact digitC_dd (by omega)
  · subst hc; exact digitC_dd (by omega)
  · subst hc; exact Or.inr rfl
  · subst hc; exact digitC_dd (by omega)
  · subst hc; exact digitC_dd (by omega)

theorem fmtYMD_ne_nil {y m d : Nat} : fmtYMD y m d ≠ [] := by
  simp only [fmtYMD]
  intro h
  rcases List.append_eq_nil.1 h with ⟨h1, _⟩
  rcases List.append_eq_nil.1 h1 with ⟨h2, _⟩
  rcases List.append_eq_nil.1 h2 with ⟨h3, _⟩
  rcases List.append_eq_nil.1 h3 with ⟨h4, _⟩
  exact natToStr_ne_nil h4

theorem fmtYMD_hasDDD {y m d : Nat} (hm : m < 100) (hd : d < 100) :
    hasDigitDashDigit (fmtYMD y m d) = true := by
  have he : fmtYMD y m d = (natToStr y ++ ['-'] ++ [digitC (m / 10)]) ++
      [digitC (m % 10), '-', digitC (d / 10), digitC (d % 10)] := by
    simp [fmtYMD, pad2_eq hm, pad2_eq hd, chars]
  rw [he]
  apply hasDDD_append
  exact hasDDD_triple _ (digitC_digit (by omega)) (Or.inl rfl) (digitC_digit (by omega))

theorem fmtYMD_short_not_matches {y m d : Nat} (hy : y < 1000) (hm : m < 100) (hd : d < 100) :
    matchesYMD (fmtYMD y m d) = false := by
  cases h : matchesYMD (fmtYMD y m d)
  · rfl
  · exfalso
    have hlen := matchesYMD_len h
    have : (fmtYMD y m d).length ≤ 9 := by
      simp only [fmtYMD, List.length_append, pad2_eq hm, pad2_eq hd, chars]
      have := natToStr_len3 hy
      simp [String.data]
      omega
    omega

theorem fmtYMD_big_matches {y m d : Nat} (h1 : 1000 ≤ y) (h2 : y ≤ 9999)
    (hm : m < 100) (hd : d < 100) : matchesYMD (fmtYMD y m d) = true := by
  have he : fmtYMD y m d =
      digitC (y / 1000) :: digitC (y / 100 % 10) :: digitC (y / 10 % 10) :: digitC (y % 10) ::
      '-' :: digitC (m / 10) :: digitC (m % 10) :: '-' :: digitC (d / 10) ::
      digitC (d % 10) :: [] := by
    simp [fmtYMD, natToStr_four h1 h2, pad2_eq hm, pad2_eq hd, chars]
  rw [he]
  show (isDigitC _ && isDigitC _ && isDigitC _ && isDigitC _ && ('-' = '-' : Bool) &&
    isDigitC _ && isDigitC _ && ('-' = '-' : Bool) && isDigitC _ && isDigitC _) = true
  simp [digitC_digit (show y / 1000 < 10 by omega), digitC_digit (show y / 100 % 10 < 10 by omega),
    digitC_digit (show y / 10 % 10 < 10 by omega), digitC_digit (show y % 10 < 10 by omega),
    digitC_digit (show m / 10 < 10 by omega), digitC_digit (show m % 10 < 10 by omega),
    digitC_digit (show d / 10 < 10 by omega), digitC_digit (show d % 10 < 10 by omega)]

theorem fmtDate_matches {d : PyDate} (hy : d.year ≤ 9999) (hm : d.month < 100)
    (hd : d.day < 100) : matchesYMD (fmtDate d) = true := by
  have he : fmtDate d =
      digitC (d.year / 1000) :: digitC (d.year / 100 % 10) :: digitC (d.year / 10 % 10) ::
      digitC (d.year % 10) :: '-' :: digitC (d.month / 10) :: digitC (d.month % 10) :: '-' ::
      digitC (d.day / 10) :: digitC (d.day % 10) :: [] := by
    simp [fmtDate, pad4_eq (show d.year < 10000 by omega), pad2_eq hm, pad2_eq hd, chars]
  rw [he]
  show (isDigitC _ && isDigitC _ && isDigitC _ && isDigitC _ && ('-' = '-' : Bool) &&
    isDigitC _ && isDigitC _ && ('-' = '-' : Bool) && isDigitC _ && isDigitC _) = true
  simp [digitC_digit (show d.year / 1000 < 10 by omega),
    digitC_digit (show d.year / 100 % 10 < 10 by omega),
    digitC_digit (show d.year / 10 % 10 < 10 by omega),
    digitC_digit (show d.year % 10 < 10 by omega),
    digitC_digit (show d.month / 10 < 10 by omega),
    digitC_digit (show d.month % 10 < 10 by omega),
    digitC_digit (show d.day / 10 < 10 by omega),
    digitC_digit (show d.day % 10 < 10 by omega)]

theorem take4digits_le {t : Str} {n : Nat} (h : take4digits t = some n) : n ≤ 9999 := by
  rcases t with _ | ⟨a, _ | ⟨b, _ | ⟨c, _ | ⟨d, rest⟩⟩⟩⟩ <;>
    try exact Option.noConfusion h
  simp only [take4digits] at h
  split at h
  · next hds =>
    simp only [Option.some.injEq] at h
    simp only [Bool.and_eq_true] at hds
    obtain ⟨⟨⟨h1, h2⟩, h3⟩, h4⟩ := hds
    have b1 := digitVal_le h1
    have b2 := digitVal_le h2
    have b3 := digitVal_le h3
    have b4 := digitVal_le h4
    simp only [natOfDigits, List.foldl] at h
    omega
  · exact absurd h (by simp)

/-! ### Specifications of the regex searches -/

theorem orElse_eq_some {α : Type} {x y : Option α} {r : α} (h : (x <|> y) = some r) :
    x = some r ∨ (x = none ∧ y = some r) := by
  cases x with
  | some a => left; simpa using h
  | none => right; exact ⟨rfl, by simpa using h⟩

theorem ite_none_eq_some {α : Type} {c : Prop} [Decidable c] {x : Option α} {r : α}
    (h : (if c then x else none) = some r) : c ∧ x = some r := by
  by_cases hc : c
  · rw [if_pos hc] at h; exact ⟨hc, h⟩
  · rw [if_neg hc] at h; exact Option.noConfusion h

theorem ite_none_left_eq_some {α : Type} {c : Prop} [Decidable c] {x : Option α} {r : α}
    (h : (if c then none else x) = some r) : ¬c ∧ x = some r := by
  by_cases hc : c
  · rw [if_pos hc] at h; exact Option.noConfusion h
  · rw [if_neg hc] at h; exact ⟨hc, h⟩

theorem afterSpaceDMY_spec {d : Nat} {t2 : Str} {rec : DMYm}
    (h : afterSpaceDMY d t2 = some rec) :
    rec.day = d ∧ rec.mon ≠ [] ∧ (∀ c ∈ rec.mon, isLowerC c = true) ∧ rec.mon <+: t2 ∧
      ∀ v, rec.year = some v → v ≤ 9999 := by
  simp only [afterSpaceDMY] at h
  obtain ⟨hmon, h⟩ := ite_none_left_eq_some h
  simp only [Option.some.injEq] at h
  subst h
  refine ⟨rfl, hmon, ?_, List.takeWhile_prefix _, ?_⟩
  · intro c hc
    exact List.mem_takeWhile_imp hc
  · intro v hv
    exact take4digits_le hv

theorem afterDayDMY_spec {d : Nat} {t : Str} {rec : DMYm} (h : afterDayDMY d t = some rec) :
    rec.day = d ∧ rec.mon ≠ [] ∧ (∀ c ∈ rec.mon, isLowerC c = true) ∧ rec.mon <:+: t ∧
      ∀ v, rec.year = some v → v ≤ 9999 := by
  have hsuf : (if startsOrd t then t.drop 2 else t) <:+ t := by
    split
    · exact List.drop_suffix 2 t
    · exact List.suffix_refl t
  unfold afterDayDMY at h
  split at h
  · next c rest heq =>
    rw [heq] at hsuf
    obtain ⟨_, h⟩ := ite_none_eq_some h
    obtain ⟨h1, h2, h3, h4, h5⟩ := afterSpaceDMY_spec h
    refine ⟨h1, h2, h3, ?_, h5⟩
    exact (h4.isInfix.trans (List.dropWhile_suffix _).isInfix).trans hsuf.isInfix
  · exact Option.noConfusion h

theorem dmyTwo_spec {c1 : Char} {t : Str} {rec : DMYm} (h : dmyTwo c1 t = some rec)
    (hc1 : digitVal c1 ≤ 9) :
    rec.day ≤ 99 ∧ rec.mon ≠ [] ∧ (∀ c ∈ rec.mon, isLowerC c = true) ∧ rec.mon <:+: t ∧
      ∀ v, rec.year = some v → v ≤ 9999 := by
  rcases t with _ | ⟨c2, rest2⟩
  · exact Option.noConfusion h
  · unfold dmyTwo at h
    obtain ⟨hd2, h⟩ := ite_none_eq_some h
    obtain ⟨h1, hm2, hm3, hm4, hm5⟩ := afterDayDMY_spec h
    refine ⟨by rw [h1]; have := digitVal_le hd2; omega, hm2, hm3, ?_, hm5⟩
    exact hm4.trans (List.suffix_cons c2 rest2).isInfix

theorem matchDMYAt_spec {t : Str} {rec : DMYm} (h : matchDMYAt t = some rec) :
    rec.day ≤ 99 ∧ rec.mon ≠ [] ∧ (∀ c ∈ rec.mon, isLowerC c = true) ∧ rec.mon <:+: t ∧
      ∀ v, rec.year = some v → v ≤ 9999 := by
  rcases t with _ | ⟨c1, rest⟩
  · exact Option.noConfusion h
  · unfold matchDMYAt at h
    obtain ⟨hd1, h⟩ := ite_none_eq_some h
    rcases orElse_eq_some h with h2 | ⟨_, h2⟩
    · obtain ⟨h1, hm2, hm3, hm4, hm5⟩ := dmyTwo_spec h2 (digitVal_le hd1)
      exact ⟨h1, hm2, hm3, hm4.trans (List.suffix_cons c1 rest).isInfix, hm5⟩
    · obtain ⟨h1, hm2, hm3, hm4, hm5⟩ := afterDayDMY_spec h2
      refine ⟨by rw [h1]; have := digitVal_le hd1; omega, hm2, hm3, ?_, hm5⟩
      exact hm4.trans (List.suffix_cons c1 rest).isInfix

theorem searchDMY_spec : ∀ {s : Str} {rec : DMYm}, searchDMY s = some rec →
    rec.day ≤ 99 ∧ rec.mon ≠ [] ∧ (∀ c ∈ rec.mon, isLowerC c = true) ∧ rec.mon <:+: s ∧
      ∀ v, rec.year = some v → v ≤ 9999 := by
  intro s
  induction s with
  | nil => intro rec h; exact Option.noConfusion h
  | cons c rest ih =>
    intro rec h
    rcases orElse_eq_some h with h2 | ⟨_, h2⟩
    · exact matchDMYAt_spec h2
    · obtain ⟨h1, hm2, hm3, hm4, hm5⟩ := ih h2
      exact ⟨h1, hm2, hm3, hm4.trans (List.suffix_cons c rest).isInfix, hm5⟩

theorem mdyAfterDay_spec {mon : Str} {d : Nat} {t5 : Str} {rec : MDYm}
    (h : mdyAfterDay mon d t5 = some rec) :
    rec.mon = mon ∧ rec.day = d ∧ ∀ v, rec.year = some v → v ≤ 9999 := by
  unfold mdyAfterDay at h
  simp only [Option.some.injEq] at h
  subst h
  exact ⟨rfl, rfl, fun v hv => take4digits_le hv⟩

theorem mdyDigits_spec {mon : Str} {t4 : Str} {rec : MDYm} (h : mdyDigits mon t4 = some rec) :
    rec.mon = mon ∧ rec.day ≤ 99 ∧ ∀ v, rec.year = some v → v ≤ 9999 := by
  rcases t4 with _ | ⟨d1, _ | ⟨d2, r2⟩⟩
  · exact Option.noConfusion h
  · unfold mdyDigits at h
    obtain ⟨hd1, h⟩ := ite_none_eq_some h
    obtain ⟨h1, h2, h3⟩ := mdyAfterDay_spec h
    exact ⟨h1, by rw [h2]; have := digitVal_le hd1; omega, h3⟩
  · unfold mdyDigits at h
    obtain ⟨hd1, h⟩ := ite_none_eq_some h
    by_cases hd2 : isDigitC d2 = true
    · rw [if_pos hd2] at h
      obtain ⟨h1, h2, h3⟩ := mdyAfterDay_spec h
      exact ⟨h1, by rw [h2]; have := digitVal_le hd1; have := digitVal_le hd2; omega, h3⟩
    · rw [if_neg hd2] at h
      obtain ⟨h1, h2, h3⟩ := mdyAfterDay_spec h
      exact ⟨h1, by rw [h2]; have := digitVal_le hd1; omega, h3⟩

theorem matchMDYAt_spec {t : Str} {rec : MDYm} (h : matchMDYAt t = some rec) :
    rec.day ≤ 99 ∧ rec.mon ≠ [] ∧ (∀ c ∈ rec.mon, isLowerC c = true) ∧ rec.mon <:+: t ∧
      ∀ v, rec.year = some v → v ≤ 9999 := by
  simp only [matchMDYAt] at h
  obtain ⟨hmon, h⟩ := ite_none_left_eq_some h
  split at h
  · obtain ⟨_, h⟩ := ite_none_eq_some h
    obtain ⟨h1, h2, h3⟩ := mdyDigits_spec h
    refine ⟨h2, ?_, ?_, ?_, h3⟩
    · rw [h1]; exact hmon
    · rw [h1]; intro c hc; exact List.mem_takeWhile_imp hc
    · rw [h1]; exact (List.takeWhile_prefix _).isInfix
  · exact Option.noConfusion h

theorem searchMDY_spec : ∀ {s : Str} {rec : MDYm}, searchMDY s = some rec →
    rec.day ≤ 99 ∧ rec.mon ≠ [] ∧ (∀ c ∈ rec.mon, isLowerC c = true) ∧ rec.mon <:+: s ∧
      ∀ v, rec.year = some v → v ≤ 9999 := by
  intro s
  induction s with
  | nil => intro rec h; exact Option.noConfusion h
  | cons c rest ih =>
    intro rec h
    rcases orElse_eq_some h with h2 | ⟨_, h2⟩
    · exact matchMDYAt_spec h2
    · obtain ⟨h1, hm2, hm3, hm4, hm5⟩ := ih h2
      exact ⟨h1, hm2, hm3, hm4.trans (List.suffix_cons c rest).isInfix, hm5⟩

theorem firstLowerRun_spec : ∀ {s run : Str}, firstLowerRun s = some run →
    run ≠ [] ∧ (∀ c ∈ run, isLowerC c = true) ∧ run <:+: s := by
  intro s
  induction s with
  | nil => intro run h; exact Option.noConfusion h
  | cons c rest ih =>
    intro run h
    unfold firstLowerRun at h
    split at h
    · next hc =>
      simp only [Option.some.injEq] at h
      subst h
      rw [List.takeWhile_cons_of_pos hc]
      refine ⟨by simp, ?_, ?_⟩
      · intro x hx
        rw [← List.takeWhile_cons_of_pos hc] at hx
        exact List.mem_takeWhile_imp hx
      · rw [← List.takeWhile_cons_of_pos hc]
        exact (List.takeWhile_prefix _).isInfix
    · obtain ⟨h1, h2, h3⟩ := ih h
      exact ⟨h1, h2, h3.trans (List.suffix_cons c rest).isInfix⟩

/-! ### Month-table lemmas -/

theorem findMonth_le (name : Str) : findMonth name ≤ 12 := by
  unfold findMonth
  cases hf : monthTable.find? (fun p => subIn p.1 name) with
  | none => simp
  | some p =>
    have hm := List.mem_of_find?_eq_some hf
    have hall : ∀ q ∈ monthTable, q.2 ≤ 12 := by decide
    simpa using hall p hm

theorem findMonth_key {name : Str} (h : 0 < findMonth name) :
    ∃ k, (∃ v, (k, v) ∈ monthTable) ∧ subIn k name = true := by
  unfold findMonth at h
  cases hf : monthTable.find? (fun p => subIn p.1 name) with
  | none => rw [hf] at h; simp at h
  | some p =>
    refine ⟨p.1, ⟨p.2, by simpa using List.mem_of_find?_eq_some hf⟩, ?_⟩
    have := List.find?_some hf
    simpa using this

theorem monthTable_token : ∀ p ∈ monthTable, ∃ t ∈ months3, subIn t p.1 = true := by decide

/-! ### Fixed-point analysis of `normalize_date` -/

theorem ite_someE {α : Type} {c : Prop} [Decidable c] {e : α} {r : α}
    (h : (if c then some e else none) = some r) : c ∧ r = e := by
  by_cases hc : c
  · rw [if_pos hc] at h; exact ⟨hc, (Option.some.inj h).symm⟩
  · rw [if_neg hc] at h; exact Option.noConfusion h

theorem subIn_cons {k s : Str} (c : Char) (h : subIn k s = true) : subIn k (c :: s) = true := by
  simp [subIn, h]

theorem startsW_strip : ∀ u : Str, ∀ k : Str, (∀ c ∈ k, isDigitC c = false) →
    startsW k (stripOrdinals u) = true → startsW k u = true := by
  intro u
  induction u using stripOrdinals.induct with
  | case1 => exact fun k _ h => h
  | case2 => exact fun k _ h => h
  | case3 => exact fun k _ h => h
  | case4 c a b rest hif ih =>
    intro k hk h
    simp only [stripOrdinals] at h
    rw [if_pos hif] at h
    cases k with
    | nil => rfl
    | cons x k2 =>
      simp only [startsW, Bool.and_eq_true, decide_eq_true_eq] at h
      obtain ⟨hxc, _⟩ := h
      subst hxc
      have hdig : isDigitC x = true := by
        have h5 := hif
        simp only [Bool.and_eq_true] at h5
        exact h5.1
      exact absurd hdig (by simp [hk x (by simp)])
  | case5 c a b rest hif ih =>
    intro k hk h
    simp only [stripOrdinals] at h
    rw [if_neg (by simpa using hif)] at h
    cases k with
    | nil => rfl
    | cons x k2 =>
      simp only [startsW, Bool.and_eq_true, decide_eq_true_eq] at h ⊢
      obtain ⟨hxc, h2⟩ := h
      refine ⟨hxc, ?_⟩
      exact ih k2 (fun y hy => hk y (List.mem_cons_of_mem x hy)) h2

theorem subIn_strip : ∀ u : Str, ∀ k : Str, (∀ c ∈ k, isDigitC c = false) →
    subIn k (stripOrdinals u) = true → subIn k u = true := by
  intro u
  induction u using stripOrdinals.induct with
  | case1 => exact fun k _ h => h
  | case2 => exact fun k _ h => h
  | case3 => exact fun k _ h => h
  | case4 c a b rest hif ih =>
    intro k hk h
    simp only [stripOrdinals] at h
    rw [if_pos hif] at h
    simp only [subIn, Bool.or_eq_true] at h
    rcases h with h | h
    · cases k with
      | nil => simp [subIn, startsW]
      | cons x k2 =>
        simp only [startsW, Bool.and_eq_true, decide_eq_true_eq] at h
        obtain ⟨hxc, _⟩ := h
        subst hxc
        have hdig : isDigitC x = true := by
          have h5 := hif
          simp only [Bool.and_eq_true] at h5
          exact h5.1
        exact absurd hdig (by simp [hk x (by simp)])
    · have h3 := ih k hk h
      exact subIn_cons c (subIn_cons a (subIn_cons b h3))
  | case5 c a b rest hif ih =>
    intro k hk h
    simp only [stripOrdinals] at h
    rw [if_neg (by simpa using hif)] at h
    have h' : startsW k (c :: stripOrdinals (a :: b :: rest)) = true ∨
        subIn k (stripOrdinals (a :: b :: rest)) = true := by
      have he : subIn k (c :: stripOrdinals (a :: b :: rest)) =
          (startsW k (c :: stripOrdinals (a :: b :: rest)) ||
            subIn k (stripOrdinals (a :: b :: rest))) := rfl
      rw [he] at h
      simpa using h
    rcases h' with h | h
    · have hsw : startsW k (c :: a :: b :: rest) = true := by
        cases k with
        | nil => rfl
        | cons x k2 =>
          simp only [startsW, Bool.and_eq_true, decide_eq_true_eq] at h ⊢
          exact ⟨h.1,
            startsW_strip (a :: b :: rest) k2 (fun y hy => hk y (List.mem_cons_of_mem x hy)) h.2⟩
      have he : subIn k (c :: a :: b :: rest) =
          (startsW k (c :: a :: b :: rest) || subIn k (a :: b :: rest)) := rfl
      rw [he, hsw, Bool.true_or]
    · exact subIn_cons c (ih k hk h)

theorem noLower_of_dd {s : Str} (hdd : ∀ c ∈ s, ddChar c) : ∀ c ∈ s, isLowerC c = false :=
  fun c hc => ddChar_not_lower (hdd c hc)

theorem anyMonthToken_false {s : Str} (hnl : ∀ c ∈ s, isLowerC c = false) :
    anyMonthToken s = false := by
  cases ha : anyMonthToken s
  · rfl
  · exfalso
    unfold anyMonthToken at ha
    obtain ⟨t, ht, hsub⟩ := List.any_eq_true.1 ha
    have hex : ∃ c ∈ t, isLowerC c = true := by fin_cases ht <;> decide
    obtain ⟨c, hct, hcl⟩ := hex
    have hcs := subIn_mem hsub hct
    exact absurd (hnl c hcs) (by simp [hcl])

theorem tryDMY_none_of_noLower {s : Str} (hnl : ∀ c ∈ s, isLowerC c = false) :
    tryDMY s = none := by
  unfold tryDMY
  cases hs : searchDMY s with
  | none => rfl
  | some rec =>
    obtain ⟨_, h2, h3, h4, _⟩ := searchDMY_spec hs
    exfalso
    obtain ⟨c, hc⟩ := List.exists_mem_of_ne_nil rec.mon h2
    exact absurd (hnl c (h4.subset hc)) (by simp [h3 c hc])

theorem tryMDY_none_of_noLower {s : Str} (hnl : ∀ c ∈ s, isLowerC c = false) :
    tryMDY s = none := by
  unfold tryMDY
  cases hs : searchMDY s with
  | none => rfl
  | some rec =>
    obtain ⟨_, h2, h3, h4, _⟩ := searchMDY_spec hs
    exfalso
    obtain ⟨c, hc⟩ := List.exists_mem_of_ne_nil rec.mon h2
    exact absurd (hnl c (h4.subset hc)) (by simp [h3 c hc])

theorem tryMonthOnly_none_of_noLower {s : Str} (hnl : ∀ c ∈ s, isLowerC c = false) :
    tryMonthOnly s = none := by
  unfold tryMonthOnly
  cases hs : firstLowerRun s with
  | none => rfl
  | some run =>
    obtain ⟨h1, h2, h3⟩ := firstLowerRun_spec hs
    exfalso
    obtain ⟨c, hc⟩ := List.exists_mem_of_ne_nil run h1
    exact absurd (hnl c (h3.subset hc)) (by simp [h2 c hc])

theorem tryRelative_none_of_noLower (rel : Nat → Option PyDate) {s : Str}
    (hnl : ∀ c ∈ s, isLowerC c = false) : tryRelative rel s = none := by
  have hw : subIn (chars "week") s = false := by
    cases hsub : subIn (chars "week") s
    · rfl
    · exact absurd (hnl 'w' (subIn_mem hsub (by decide))) (by decide)
  have hd : subIn (chars "day") s = false := by
    cases hsub : subIn (chars "day") s
    · rfl
    · exact absurd (hnl 'd' (subIn_mem hsub (by decide))) (by decide)
  have ht : subIn (chars "tomorrow") s = false := by
    cases hsub : subIn (chars "tomorrow") s
    · rfl
    · exact absurd (hnl 't' (subIn_mem hsub (by decide))) (by decide)
  unfold tryRelative
  simp [hw, hd, ht]

/-- Any non-empty digit-and-dash string with a digit-dash-digit triple but not
of the canonical prefix shape is passed through unchanged by the final check. -/
theorem passthrough_dd (rel : Nat → Option PyDate) {s : Str} (hne : s ≠ [])
    (hdd : ∀ c ∈ s, ddChar c) (h3 : hasDigitDashDigit s = true)
    (hmy : matchesYMD s = false) : normalize_date rel (some s) = some s := by
  have hlow : lowerStr s = s := lowerStr_dd hdd
  have hstrip : stripOrdinals (lowerStr s) = s := by rw [hlow]; exact stripOrdinals_dd s hdd
  have hnl := noLower_of_dd hdd
  simp only [normalize_date, hstrip]
  rw [if_neg hne]
  rw [hmy]
  simp only [Bool.false_eq_true, if_false]
  rw [tryDMY_none_of_noLower hnl, tryMDY_none_of_noLower hnl,
    tryMonthOnly_none_of_noLower hnl, tryRelative_none_of_noLower rel hnl]
  simp only [Option.none_orElse]
  rw [hlow, anyMonthToken_false hnl, h3]
  simp

/-- A string already in (prefix) canonical `YYYY-MM-DD` shape is returned
unchanged. -/
theorem normalize_date_canonical (rel : Nat → Option PyDate) {s : Str}
    (h : matchesYMD s = true) : normalize_date rel (some s) = some s := by
  have hne : s ≠ [] := by
    intro he
    subst he
    exact absurd h Bool.false_ne_true
  simp only [normalize_date]
  rw [if_neg hne, h]
  simp

/-- The `2025-MM` month-key output of the month-only branch passes through
unchanged. -/
theorem monthKey_passthrough (rel : Nat → Option PyDate) {m : Nat} (h1 : 1 ≤ m) (h2 : m ≤ 12) :
    normalize_date rel (some (chars "2025-" ++ pad2 m)) = some (chars "2025-" ++ pad2 m) := by
  have h5 : chars "2025-" = ['2', '0', '2', '5', '-'] := rfl
  apply passthrough_dd rel
  · rw [h5]; simp
  · intro c hcm
    rw [h5, pad2_eq (by omega)] at hcm
    simp only [List.cons_append, List.nil_append, List.mem_cons, List.not_mem_nil,
      or_false] at hcm
    rcases hcm with hcm | hcm | hcm | hcm | hcm | hcm | hcm
    · subst hcm; exact Or.inl (by decide)
    · subst hcm; exact Or.inl (by decide)
    · subst hcm; exact Or.inl (by decide)
    · subst hcm; exact Or.inl (by decide)
    · subst hcm; exact Or.inr rfl
    · subst hcm; exact digitC_dd (by omega)
    · subst hcm; exact digitC_dd (by omega)
  · have h6 : chars "2025-" ++ pad2 m = ['2', '0'] ++ ('2' :: '5' :: '-' :: pad2 m) := rfl
    rw [h6]
    apply hasDDD_append
    rw [pad2_eq (by omega)]
    exact hasDDD_cons '2' (hasDDD_triple _ (by decide) (Or.inl rfl) (digitC_digit (by omega)))
  · rw [h5, pad2_eq (by omega)]
    rfl

/-- Every `some` output of `normalize_date` is a fixed point, provided the
current-date oracle only produces real `datetime` dates. -/
theorem normalize_date_fix (rel : Nat → Option PyDate)
    (hrel : ∀ n d, rel n = some d → d.year ≤ 9999 ∧ d.month ≤ 99 ∧ d.day ≤ 99)
    {s y : Str} (h : normalize_date rel (some s) = some y) :
    normalize_date rel (some y) = some y := by
  have h0 := h
  simp only [normalize_date] at h
  by_cases hne : s = []
  · rw [if_pos hne] at h; exact Option.noConfusion h
  rw [if_neg hne] at h
  by_cases hmy : matchesYMD s = true
  · rw [if_pos hmy] at h
    have hy : s = y := Option.some.inj h
    subst hy
    exact normalize_date_canonical rel hmy
  rw [if_neg hmy] at h
  cases ha : tryDMY (stripOrdinals (lowerStr s)) with
  | some r =>
    rw [ha] at h
    simp only [Option.some_orElse] at h
    have hy : r = y := Option.some.inj h
    subst hy
    unfold tryDMY at ha
    cases hs : searchDMY (stripOrdinals (lowerStr s)) with
    | none => rw [hs] at ha; exact Option.noConfusion ha
    | some rec =>
      rw [hs] at ha
      obtain ⟨hpos, hre⟩ := ite_someE ha
      obtain ⟨hday, _, _, _, hyr⟩ := searchDMY_spec hs
      subst hre
      have hmle : findMonth rec.mon ≤ 12 := findMonth_le rec.mon
      have hyb : rec.year.getD 2025 ≤ 9999 := by
        cases hy2 : rec.year with
        | none => simp
        | some v => simpa using hyr v hy2
      by_cases hbig : 1000 ≤ rec.year.getD 2025
      · exact normalize_date_canonical rel
          (fmtYMD_big_matches hbig hyb (by omega) (by omega))
      · exact passthrough_dd rel fmtYMD_ne_nil (fmtYMD_dd (by omega) (by omega))
          (fmtYMD_hasDDD (by omega) (by omega))
          (fmtYMD_short_not_matches (by omega) (by omega) (by omega))
  | none =>
  rw [ha] at h
  simp only [Option.none_orElse] at h
  cases hb : tryMDY (stripOrdinals (lowerStr s)) with
  | some r =>
    rw [hb] at h
    simp only [Option.some_orElse] at h
    have hy : r = y := Option.some.inj h
    subst hy
    unfold tryMDY at hb
    cases hs : searchMDY (stripOrdinals (lowerStr s)) with
    | none => rw [hs] at hb; exact Option.noConfusion hb
    | some rec =>
      rw [hs] at hb
      obtain ⟨hpos, hre⟩ := ite_someE hb
      obtain ⟨hday, _, _, _, hyr⟩ := searchMDY_spec hs
      subst hre
      have hmle : findMonth rec.mon ≤ 12 := findMonth_le rec.mon
      have hyb : rec.year.getD 2025 ≤ 9999 := by
        cases hy2 : rec.year with
        | none => simp
        | some v => simpa using hyr v hy2
      by_cases hbig : 1000 ≤ rec.year.getD 2025
      · exact normalize_date_canonical rel
          (fmtYMD_big_matches hbig hyb (by omega) (by omega))
      · exact passthrough_dd rel fmtYMD_ne_nil (fmtYMD_dd (by omega) (by omega))
          (fmtYMD_hasDDD (by omega) (by omega))
          (fmtYMD_short_not_matches (by omega) (by omega) (by omega))
  | none =>
  rw [hb] at h
  simp only [Option.none_orElse] at h
  cases hc : tryMonthOnly (stripOrdinals (lowerStr s)) with
  | some r =>
    rw [hc] at h
    simp only [Option.some_orElse] at h
    have hy : r = y := Option.some.inj h
    subst hy
    unfold tryMonthOnly at hc
    cases hf : firstLowerRun (stripOrdinals (lowerStr s)) with
    | none => rw [hf] at hc; exact Option.noConfusion hc
    | some run =>
      rw [hf] at hc
      obtain ⟨hpos, hre⟩ := ite_someE hc
      subst hre
      exact monthKey_passthrough rel hpos (findMonth_le run)
  | none =>
  rw [hc] at h
  simp only [Option.none_orElse] at h
  cases hd : tryRelative rel (stripOrdinals (lowerStr s)) with
  | some r =>
    rw [hd] at h
    have hy : r = y := Option.some.inj h
    subst hy
    simp only [tryRelative] at hd
    by_cases hw : subIn (chars "week") (stripOrdinals (lowerStr s)) = true
    · rw [if_pos hw] at hd
      rcases Option.map_eq_some'.1 hd with ⟨dte, hrl, hfd⟩
      obtain ⟨hy1, hy2, hy3⟩ := hrel _ _ hrl
      rw [← hfd]
      exact normalize_date_canonical rel (fmtDate_matches hy1 (by omega) (by omega))
    · rw [if_neg hw] at hd
      by_cases hdy : subIn (chars "day") (stripOrdinals (lowerStr s)) = true
      · rw [if_pos hdy] at hd
        rcases Option.map_eq_some'.1 hd with ⟨dte, hrl, hfd⟩
        obtain ⟨hy1, hy2, hy3⟩ := hrel _ _ hrl
        rw [← hfd]
        exact normalize_date_canonical rel (fmtDate_matches hy1 (by omega) (by omega))
      · rw [if_neg hdy] at hd
        by_cases htm : subIn (chars "tomorrow") (stripOrdinals (lowerStr s)) = true
        · rw [if_pos htm] at hd
          rcases Option.map_eq_some'.1 hd with ⟨dte, hrl, hfd⟩
          obtain ⟨hy1, hy2, hy3⟩ := hrel _ _ hrl
          rw [← hfd]
          exact normalize_date_canonical rel (fmtDate_matches hy1 (by omega) (by omega))
        · rw [if_neg htm] at hd
          exact Option.noConfusion hd
  | none =>
    rw [hd] at h
    obtain ⟨_, hsy⟩ := ite_none_left_eq_some h
    have hy : s = y := Option.some.inj hsy
    subst hy
    exact h0

/-- C3: `normalize_date` is idempotent on canonical input (`YYYY-MM-DD`
prefix shape or `YYYY-MM` month key) and on every output of a previous call,
for any current-date oracle producing real `datetime` dates (year at most
9999, month and day of at most two digits). -/
theorem normalize_date_idempotent (rel : Nat → Option PyDate)
    (hrel : ∀ n d, rel n = some d → d.year ≤ 9999 ∧ d.month ≤ 99 ∧ d.day ≤ 99)
    (x : Str)
    (_hx : matchesYMD x = true ∨ isYearMonthKey x = true ∨
      ∃ s, normalize_date rel (some s) = some x) :
    normalize_date rel (normalize_date rel (some x)) = normalize_date rel (some x) := by
  cases hr : normalize_date rel (some x) with
  | none => rfl
  | some y => exact normalize_date_fix rel hrel hr

/-- C3 witness: idempotence at the canonical date `2025-12-25` with a trivial
current-date oracle. -/
theorem normalize_date_idempotent_witness :
    normalize_date (fun _ => none) (normalize_date (fun _ => none)
      (some (chars "2025-12-25"))) =
      normalize_date (fun _ => none) (some (chars "2025-12-25")) :=
  normalize_date_idempotent (fun _ => none) (fun _ _ h => Option.noConfusion h)
    (chars "2025-12-25") (Or.inl (by decide))

/-- C4 counterexample: `"tomorrow"` contains no month token and no
digit-dash/slash date pattern, yet `normalize_date` does not return `None`:
the relative-date branch fires and returns tomorrow's date. -/
theorem normalize_date_none_counterexample :
    (anyMonthToken (lowerStr (chars "tomorrow")) = false ∧
      hasDigitDashDigit (chars "tomorrow") = false) ∧
    normalize_date (fun _ => some ⟨2026, 10, 13⟩) (some (chars "tomorrow")) =
      some (chars "2026-10-13") := by decide

/-- C4 amended: `normalize_date(None)` is `None`, and an input with no month
token, no digit-dash/slash date pattern, and no relative-date trigger (the
`week`/`day`/`tomorrow` branches fail on the cleaned lowercase input)
normalizes to `None` rather than the original string. -/
theorem normalize_date_none_amended (rel : Nat → Option PyDate) (s : Str)
    (hm : anyMonthToken (lowerStr s) = false)
    (hd : hasDigitDashDigit s = false)
    (hr : tryRelative rel (stripOrdinals (lowerStr s)) = none) :
    normalize_date rel none = none ∧ normalize_date rel (some s) = none := by
  refine ⟨rfl, ?_⟩
  by_cases hne : s = []
  · subst hne; rfl
  have hmy : matchesYMD s = false := by
    cases hq : matchesYMD s
    · rfl
    · exact absurd (hasDDD_of_matchesYMD hq) (by simp [hd])
  have key : ∀ mon : Str, mon ≠ [] → (∀ c ∈ mon, isLowerC c = true) →
      mon <:+: stripOrdinals (lowerStr s) → ¬ 0 < findMonth mon := by
    intro mon hne2 hlow hinf hpos
    obtain ⟨k, ⟨v, hkmem⟩, hksub⟩ := findMonth_key hpos
    have hknd : ∀ c ∈ k, isDigitC c = false := by
      have hall : ∀ p ∈ monthTable, ∀ c ∈ p.1, isDigitC c = false := by decide
      exact fun c hc => hall (k, v) hkmem c hc
    have hkcl : subIn k (stripOrdinals (lowerStr s)) = true :=
      subIn_trans hksub (infix_imp_subIn hinf)
    have hkor : subIn k (lowerStr s) = true := subIn_strip (lowerStr s) k hknd hkcl
    obtain ⟨t3, ht3, hsub3⟩ := monthTable_token (k, v) hkmem
    have hto : subIn t3 (lowerStr s) = true := subIn_trans hsub3 hkor
    have hany : anyMonthToken (lowerStr s) = true := by
      unfold anyMonthToken
      exact List.any_eq_true.2 ⟨t3, ht3, hto⟩
    simp [hm] at hany
  have hdmy : tryDMY (stripOrdinals (lowerStr s)) = none := by
    unfold tryDMY
    cases hs : searchDMY (stripOrdinals (lowerStr s)) with
    | none => rfl
    | some rec =>
      obtain ⟨_, h2, h3, h4, _⟩ := searchDMY_spec hs
      show (if 0 < findMonth rec.mon then
        some (fmtYMD (rec.year.getD 2025) (findMonth rec.mon) rec.day) else none) = none
      rw [if_neg (key rec.mon h2 h3 h4)]
  have hmdy : tryMDY (stripOrdinals (lowerStr s)) = none := by
    unfold tryMDY
    cases hs : searchMDY (stripOrdinals (lowerStr s)) with
    | none => rfl
    | some rec =>
      obtain ⟨_, h2, h3, h4, _⟩ := searchMDY_spec hs
      show (if 0 < findMonth rec.mon then
        some (fmtYMD (rec.year.getD 2025) (findMonth rec.mon) rec.day) else none) = none
      rw [if_neg (key rec.mon h2 h3 h4)]
  have hmon : tryMonthOnly (stripOrdinals (lowerStr s)) = none := by
    unfold tryMonthOnly
    cases hs : firstLowerRun (stripOrdinals (lowerStr s)) with
    | none => rfl
    | some run =>
      obtain ⟨h1, h2, h3⟩ := firstLowerRun_spec hs
      show (if 0 < findMonth run then
        some (chars "2025-" ++ pad2 (findMonth run)) else none) = none
      rw [if_neg (key run h1 h2 h3)]
  simp only [normalize_date]
  rw [if_neg hne, if_neg (by simp [hmy] : ¬ matchesYMD s = true)]
  rw [hdmy, hmdy, hmon, hr]
  simp only [Option.none_orElse]
  rw [hm, hd]
  simp

/-- C4 amended witness: the garbage input `"xyz"` normalizes to `None`, and
`None` maps to `None`. -/
theorem normalize_date_none_amended_witness :
    normalize_date (fun _ => none) none = none ∧
      normalize_date (fun _ => none) (some (chars "xyz")) = none :=
  normalize_date_none_amended (fun _ => none) (chars "xyz") (by decide) (by decide) (by decide)

/-! ### C5: destination vs. origin in `SimpleNLU.extract` -/

-- Sanity examples mirroring the repository's NLU tests.
example : (extract (chars "Plan a trip to Mumbai")).intent = chars "search" ∧
    (extract (chars "Plan a trip to Mumbai")).destination = some (chars "Mumbai") := by decide
example : (extract (chars "Watch Delhi budget $500")).intent = chars "watch" ∧
    (extract (chars "Watch Delhi budget $500")).budget = some (Qv.ofNat 500) := by decide
example : (extract (chars "I want to go to Paris on Dec 25")).dates = some (chars "dec 25") ∧
    (extract (chars "I want to go to Paris on Dec 25")).destination =
      some (chars "Paris") := by decide
example : (extract (chars "from Mumbai to Delhi")).destination = some (chars "Delhi") ∧
    (extract (chars "from Mumbai to Delhi")).origin = some (chars "Mumbai") := by decide

/-- C5 counterexample: in `"from mumbai airport to delhi"` both Mumbai and
Delhi are vocabulary destinations and Mumbai follows `"from"`, yet `extract`
selects Mumbai as the destination: the origin guard compares each city with
the whole captured phrase `"mumbai airport"`, which is not equal to
`"mumbai"`. -/
theorem extract_from_city_counterexample :
    subIn (chars "from mumbai") (chars "from mumbai airport to delhi") = true ∧
    subIn (chars "mumbai") (chars "from mumbai airport to delhi") = true ∧
    subIn (chars "delhi") (chars "from mumbai airport to delhi") = true ∧
    foundOrigin (chars "from mumbai airport to delhi") = chars "mumbai airport" ∧
    (extract (chars "from mumbai airport to delhi")).destination =
      some (chars "Mumbai") := by decide

/-- C5 amended: a vocabulary city is never selected as destination when the
captured origin phrase (the text following `from`/`departing`/`leaving` up to
the next `to`/`for`/`on` or end of string, stripped and lowered) is exactly
that city's lowercase name; a city that is merely contained in a longer
captured phrase (or follows a `from` whose capture fails) can still be
selected. -/
theorem extract_origin_not_destination (text city : Str)
    (he : lowerStr city = foundOrigin (lowerStr text)) :
    (extract text).destination ≠ some city := by
  intro hdest
  have hd : (extract text).destination =
      knownCities.find? (fun c => subIn (lowerStr c) (lowerStr text) &&
        !(lowerStr c == foundOrigin (lowerStr text))) := rfl
  rw [hd] at hdest
  have hp := List.find?_some hdest
  simp only [Bool.and_eq_true, Bool.not_eq_eq_eq_not, Bool.not_true] at hp
  have : (lowerStr city == foundOrigin (lowerStr text)) = true := beq_iff_eq.2 he
  rw [this] at hp
  exact absurd hp.2 (by simp)

/-- C5 amended witness: `"mumbai"` is exactly the captured origin phrase of
`"from mumbai to delhi"`, so Mumbai is not chosen as its destination. -/
theorem extract_origin_not_destination_witness :
    (extract (chars "from mumbai to delhi")).destination ≠ some (chars "Mumbai") :=
  extract_origin_not_destination (chars "from mumbai to delhi") (chars "Mumbai") (by decide)

/-- C1: whenever `DealsAgent.calculate_fit_score` returns normally (the
lodging's amenity tags are not null, so `.lower()` does not raise), the
returned fit score is an integer in the closed interval [10, 100], for any
flight and lodging recommendation, any category medians, any optional budget
and any optional requested-amenity list. -/
theorem calculate_fit_score_in_range (flight : FlightRec) (hotel : HotelRec)
    (f_med h_med : Qv) (budget : Option Qv) (amenities : Option (List Str)) (n : Int)
    (h : calculate_fit_score flight hotel f_med h_med budget amenities = Except.ok n) :
    10 ≤ n ∧ n ≤ 100 := by
  cases ham : hotel.amenities with
  | none =>
    simp only [calculate_fit_score, ham] at h
    exact Except.noConfusion h
  | some am =>
    simp only [calculate_fit_score, ham, Except.ok.injEq] at h
    subst h
    exact ⟨le_min (by norm_num) (le_max_left 10 _), min_le_left _ _⟩

/-- Witness for C1 at a concrete flight/hotel pair: the score is 60, inside
the interval. -/
theorem calculate_fit_score_in_range_witness :
    calculate_fit_score sampleFlightRec sampleHotelRec (Qv.ofNat 0) (Qv.ofNat 0)
      none none = Except.ok 60 ∧ (10 ≤ (60 : Int) ∧ (60 : Int) ≤ 100) :=
  ⟨by decide,
   calculate_fit_score_in_range sampleFlightRec sampleHotelRec (Qv.ofNat 0) (Qv.ofNat 0)
     none none 60 (by decide)⟩

/-- C9: every raw price event priced at or below 0.85 of its 30-day average
(with nonzero average, so the discount division does not raise) makes the
detection stage emit a DealEvent carrying a percentage-off tag, additionally
tagged Selling Fast when remaining seats are below 5 or availability below 3;
and every active Watch on the event destination whose target price is at
least the event price passes the alert filter of `consume_and_notify` and so
receives the broadcast. -/
theorem deal_event_alerts (e : RawEvent)
    (hdeal : (e.price.getD (Qv.ofNat 0)).le
      ((⟨85, 100⟩ : Qv).mul (e.avg_30d_price.getD (e.price.getD (Qv.ofNat 0)))) = true)
    (havg : (e.avg_30d_price.getD (e.price.getD (Qv.ofNat 0))).isZero = false) :
    ∃ de, detect_deal e = Except.ok (some de) ∧
      de.price = e.price.getD (Qv.ofNat 0) ∧
      de.destination = e.destination ∧
      (∃ k, DealTag.pctOff k ∈ de.tags) ∧
      ((e.seats_left.getD 10 < 5 ∨ e.availability.getD 10 < 3) →
        DealTag.sellingFast ∈ de.tags) ∧
      ∀ (ws : List Watch) (w : Watch), w ∈ ws → w.is_active = true →
        de.destination = some w.destination → de.price.le w.target_price = true →
        w ∈ match_watches de ws := by
  refine ⟨{ destination := e.destination,
            price := e.price.getD (Qv.ofNat 0),
            original_price := e.avg_30d_price.getD (e.price.getD (Qv.ofNat 0)),
            tags := DealTag.pctOff
                ((((Qv.ofNat 1).sub ((e.price.getD (Qv.ofNat 0)).div
                  (e.avg_30d_price.getD (e.price.getD (Qv.ofNat 0))))).mul
                  (Qv.ofNat 100)).toInt) ::
              (if (decide (e.seats_left.getD 10 < 5) ||
                   decide (e.availability.getD 10 < 3)) = true
               then [DealTag.sellingFast] else []) },
    ?_, rfl, rfl, ⟨_, List.mem_cons_self _ _⟩, ?_, ?_⟩
  · simp only [detect_deal]
    rw [if_pos hdeal, if_neg (by intro hcon; rw [havg] at hcon; exact Bool.false_ne_true hcon)]
    rfl
  · intro hsc
    have hc : (decide (e.seats_left.getD 10 < 5) ||
        decide (e.availability.getD 10 < 3)) = true := by
      rcases hsc with h | h <;> simp [h]
    rw [if_pos hc]
    simp
  · intro ws w hmem hact hdest hle
    refine List.mem_filter.2 ⟨hmem, ?_⟩
    simp only at hdest hle
    simp only [hdest, hact, hle, Bool.and_true, Bool.true_and, beq_self_eq_true]

/-- Witness for C9: price 100, average 150, 3 seats left — a deal with low
stock, and a watch filter applies to active watches with target at least
100. -/
theorem deal_event_alerts_witness :
    ((c9event.price.getD (Qv.ofNat 0)).le
        ((⟨85, 100⟩ : Qv).mul (c9event.avg_30d_price.getD (c9event.price.getD (Qv.ofNat 0)))) =
        true ∧
      (c9event.avg_30d_price.getD (c9event.price.getD (Qv.ofNat 0))).isZero = false) ∧
    (∃ de, detect_deal c9event = Except.ok (some de) ∧
      de.price = c9event.price.getD (Qv.ofNat 0) ∧
      de.destination = c9event.destination ∧
      (∃ k, DealTag.pctOff k ∈ de.tags) ∧
      ((c9event.seats_left.getD 10 < 5 ∨ c9event.availability.getD 10 < 3) →
        DealTag.sellingFast ∈ de.tags) ∧
      ∀ (ws : List Watch) (w : Watch), w ∈ ws → w.is_active = true →
        de.destination = some w.destination → de.price.le w.target_price = true →
        w ∈ match_watches de ws) :=
  ⟨⟨by decide, by decide⟩, deal_event_alerts c9event (by decide) (by decide)⟩

/-- Membership through stable insertion. -/
theorem mem_insertSorted {α : Type} (le : α → α → Bool) (y : α) (l : List α) (x : α) :
    x ∈ insertSorted le y l ↔ x = y ∨ x ∈ l := by
  induction l with
  | nil => simp [insertSorted]
  | cons z zs ih =>
    simp only [insertSorted]
    split
    · simp only [List.mem_cons, ih]
      try tauto
    · simp only [List.mem_cons]
      try tauto

/-- Sorting preserves membership. -/
theorem mem_stableSort {α : Type} (le : α → α → Bool) (l : List α) (x : α) :
    x ∈ stableSort le l ↔ x ∈ l := by
  suffices h : ∀ acc : List α,
      x ∈ l.foldl (fun acc x => insertSorted le x acc) acc ↔ x ∈ acc ∨ x ∈ l by
    simpa [stableSort] using h []
  induction l with
  | nil => intro acc; simp
  | cons z zs ih =>
    intro acc
    rw [List.foldl_cons, ih, mem_insertSorted]
    simp only [List.mem_cons]
    tauto

/-- Every bundle collected along one row of the cross product comes from a
successful `bundlePair` with some hotel of the row. -/
theorem collectRow_mem (pick : List Str → List Str) (f_med h_med : Qv) (budget : Option Qv)
    (amenities : Option (List Str)) (f : FlightRec) (hs : List HotelRec) (row : List Bundle)
    (hok : collectRow pick f_med h_med budget amenities f hs = Except.ok row)
    (b : Bundle) (hb : b ∈ row) :
    ∃ h ∈ hs, bundlePair pick f_med h_med budget amenities f h = Except.ok (some b) := by
  induction hs generalizing row with
  | nil =>
    simp only [collectRow, Except.ok.injEq] at hok
    subst hok
    cases hb
  | cons h0 hs ih =>
    simp only [collectRow] at hok
    cases hbp : bundlePair pick f_med h_med budget amenities f h0 with
    | error e => rw [hbp] at hok; exact Except.noConfusion hok
    | ok bopt =>
      rw [hbp] at hok
      cases hrest : collectRow pick f_med h_med budget amenities f hs with
      | error e => rw [hrest] at hok; exact Except.noConfusion hok
      | ok rest =>
        rw [hrest] at hok
        injection hok with hok
        cases bopt with
        | some b1 =>
          subst hok
          rcases List.mem_cons.1 hb with hb1 | hb2
          · exact ⟨h0, List.mem_cons_self _ _, hb1 ▸ hbp⟩
          · rcases ih rest hrest hb2 with ⟨h2, hm2, hp2⟩
            exact ⟨h2, List.mem_cons_of_mem _ hm2, hp2⟩
        | none =>
          subst hok
          rcases ih rest hrest hb with ⟨h2, hm2, hp2⟩
          exact ⟨h2, List.mem_cons_of_mem _ hm2, hp2⟩

/-- Every collected bundle comes from a successful `bundlePair` on a pair of
candidates. -/
theorem collectBundles_mem (pick : List Str → List Str) (f_med h_med : Qv)
    (budget : Option Qv) (amenities : Option (List Str)) (fs : List FlightRec)
    (hs : List HotelRec) (out : List Bundle)
    (hok : collectBundles pick f_med h_med budget amenities fs hs = Except.ok out)
    (b : Bundle) (hb : b ∈ out) :
    ∃ f ∈ fs, ∃ h ∈ hs, bundlePair pick f_med h_med budget amenities f h =
      Except.ok (some b) := by
  induction fs generalizing out with
  | nil =>
    simp only [collectBundles, Except.ok.injEq] at hok
    subst hok
    cases hb
  | cons f0 fs ih =>
    simp only [collectBundles] at hok
    cases hrow : collectRow pick f_med h_med budget amenities f0 hs with
    | error e => rw [hrow] at hok; exact Except.noConfusion hok
    | ok row =>
      rw [hrow] at hok
      cases hrest : collectBundles pick f_med h_med budget amenities fs hs with
      | error e => rw [hrest] at hok; exact Except.noConfusion hok
      | ok rest =>
        rw [hrest] at hok
        injection hok with hok
        subst hok
        rcases List.mem_append.1 hb with hb1 | hb2
        · rcases collectRow_mem pick f_med h_med budget amenities f0 hs row hrow b hb1 with
            ⟨h2, hm2, hp2⟩
          exact ⟨f0, List.mem_cons_self _ _, h2, hm2, hp2⟩
        · rcases ih rest hrest hb2 with ⟨f2, hf2, h2, hm2, hp2⟩
          exact ⟨f2, List.mem_cons_of_mem _ hf2, h2, hm2, hp2⟩

/-- A bundle produced by `bundlePair` under a non-empty requested-amenity
list records the given hotel, and that hotel's amenity string contains every
requested amenity case-insensitively (the hard filter passed). -/
theorem bundlePair_some_amenities (pick : List Str → List Str) (f_med h_med : Qv)
    (budget : Option Qv) (reqs : List Str) (hne : reqs ≠ []) (f : FlightRec) (h : HotelRec)
    (b : Bundle)
    (hok : bundlePair pick f_med h_med budget (some reqs) f h = Except.ok (some b)) :
    b.hotel = h ∧ ∃ am, h.amenities = some am ∧
      ∀ r ∈ reqs, subIn (lowerStr r) (lowerStr am) = true := by
  have hre : reqs.isEmpty = false := by
    cases reqs with
    | nil => exact absurd rfl hne
    | cons a l => rfl
  cases ham : h.amenities with
  | none =>
    simp only [bundlePair, pyTruthyL, hre, Bool.not_false, if_true, ham,
      Option.getD_some] at hok
    cases hcond : (match budget with
        | some bq => !bq.isZero && bq.lt (f.price.add h.price)
        | none => false) with
    | true =>
      rw [hcond] at hok
      simp only [if_true] at hok
      injection hok with hok
      exact Option.noConfusion hok
    | false =>
      rw [hcond] at hok
      simp only [Bool.false_eq_true, if_false] at hok
      exact Except.noConfusion hok
  | some am =>
    simp only [bundlePair, pyTruthyL, hre, Bool.not_false, if_true, ham,
      Option.getD_some] at hok
    cases hcond : (match budget with
        | some bq => !bq.isZero && bq.lt (f.price.add h.price)
        | none => false) with
    | true =>
      rw [hcond] at hok
      simp only [if_true] at hok
      injection hok with hok
      exact Option.noConfusion hok
    | false =>
      rw [hcond] at hok
      simp only [Bool.false_eq_true, if_false] at hok
      cases hmiss : (reqs.filter fun a => !subIn (lowerStr a) (lowerStr am)).isEmpty with
      | false =>
        rw [hmiss] at hok
        injection hok with hok
        exact Option.noConfusion hok
      | true =>
        rw [hmiss] at hok
        cases hsc : calculate_fit_score f h f_med h_med budget (some reqs) with
        | error e => rw [hsc] at hok; exact Except.noConfusion hok
        | ok score =>
          rw [hsc] at hok
          cases hex : generate_explanations pick f h f_med h_med (some reqs) with
          | error e => rw [hex] at hok; exact Except.noConfusion hok
          | ok expl =>
            rw [hex] at hok
            cases hpol : extract_policy_snippets h with
            | error e => rw [hpol] at hok; exact Except.noConfusion hok
            | ok pol =>
              rw [hpol] at hok
              injection hok with hok
              injection hok with hok
              constructor
              · rw [← hok]
              · refine ⟨am, rfl, ?_⟩
                intro r hr
                by_contra hcon
                have hrf : r ∈ reqs.filter fun a => !subIn (lowerStr a) (lowerStr am) :=
                  List.mem_filter.2 ⟨hr, by
                    cases hx : subIn (lowerStr r) (lowerStr am) with
                    | true => exact absurd hx hcon
                    | false => rfl⟩
                rw [List.isEmpty_iff] at hmiss
                rw [hmiss] at hrf
                cases hrf

/-- C2: for every call to `create_bundles` with a non-empty requested-amenity
list that returns normally, every returned bundle pairs a lodging whose
amenity tags contain, case-insensitively, every requested amenity. -/
theorem create_bundles_amenity_filter (db : CatalogDB) (pick : List Str → List Str)
    (destination origin date : Option Str) (budget : Option Qv) (reqs : List Str)
    (hne : reqs ≠ []) (bs : List Bundle)
    (hok : create_bundles db pick destination origin date budget (some reqs) = Except.ok bs)
    (b : Bundle) (hb : b ∈ bs) :
    ∃ am, b.hotel.amenities = some am ∧
      ∀ r ∈ reqs, subIn (lowerStr r) (lowerStr am) = true := by
  simp only [create_bundles] at hok
  cases hemp : (List.map flightToRec (flightQuery db destination none date 20)).isEmpty ||
      (List.map listingToRec (hotelQuery db destination none 10)).isEmpty with
  | true =>
    rw [hemp] at hok
    simp only [if_true] at hok
    injection hok with hok
    rw [← hok] at hb
    cases hb
  | false =>
    rw [hemp] at hok
    simp only [Bool.false_eq_true, if_false] at hok
    split at hok
    · exact Except.noConfusion hok
    · rename_i bundles heq
      injection hok with hok
      rw [← hok] at hb
      have hb2 := (mem_stableSort _ _ _).1 (List.take_subset _ _ hb)
      rcases collectBundles_mem _ _ _ _ _ _ _ _ heq b hb2 with ⟨f, hf, h, hh, hbp⟩
      rcases bundlePair_some_amenities _ _ _ _ reqs hne f h b hbp with ⟨hbh, am, ham, hall⟩
      exact ⟨am, by rw [hbh]; exact ham, hall⟩

/-- Witness for C2: the concrete run returns one bundle, whose lodging's tags
contain the requested amenity "pool". -/
theorem create_bundles_amenity_filter_witness :
    (([chars "pool"] : List Str) ≠ [] ∧
      create_bundles c2db (fun l => l) (some (chars "Goa")) none none none
        (some [chars "pool"]) = Except.ok c2bs ∧
      c2b ∈ c2bs) ∧
    ∃ am, c2b.hotel.amenities = some am ∧
      ∀ r ∈ [chars "pool"], subIn (lowerStr r) (lowerStr am) = true :=
  ⟨⟨by decide, by decide, by decide⟩,
   create_bundles_amenity_filter c2db (fun l => l) (some (chars "Goa")) none none none
     [chars "pool"] (by decide) c2bs (by decide) c2b (by decide)⟩

/-- C7 counterexample: searching Goa flights with budget 100 on 2025-12-25
finds nothing in the exact-date tier (the only flight costs 5000), and the
year-month fallback then returns that flight even though it exceeds the
budget — the budget filter is not preserved in the year-month tier. -/
theorem get_recommendations_budget_dropped_counterexample :
    (c7db.flights.filter fun f =>
        destOKf (some (chars "Goa")) f && budgetOKf (some (Qv.ofNat 100)) f &&
          likeContains f.departure_date (chars "2025-12-25")) = [] ∧
    get_recommendations c7db (some (chars "Goa")) (some (Qv.ofNat 100))
        (some (chars "Flight")) (some (chars "2025-12-25")) =
      [RecItem.flight (flightToRec c7flight)] ∧
    (flightToRec c7flight).price.le (Qv.ofNat 100) = false := by decide

/-- C7 amended: with a truthy date filter, every flight returned by
`get_recommendations` comes from the catalog and matches the destination
filter, and moreover matches the exact date together with the budget (first
tier), or merely the year-month prefix of the date with the budget filter
dropped (second tier), or the budget with the date constraint dropped (final
fallback). -/
theorem get_recommendations_date_fallback (db : CatalogDB) (dest : Option Str)
    (budget : Option Qv) (d : Str) (hd : d.isEmpty = false) (item : RecItem)
    (hmem : item ∈ get_recommendations db dest budget (some (chars "Flight")) (some d)) :
    ∃ fl ∈ db.flights, item = RecItem.flight (flightToRec fl) ∧ destOKf dest fl = true ∧
      ((budgetOKf budget fl = true ∧ likeContains fl.departure_date d = true) ∨
       (7 ≤ d.length ∧ likeContains fl.departure_date (d.take 7) = true) ∨
       budgetOKf budget fl = true) := by
  have hflight : get_recommendations db dest budget (some (chars "Flight")) (some d) =
      (flightQuery db dest budget (some d) 20).map fun f => RecItem.flight (flightToRec f) := by
    simp only [get_recommendations]
    rw [if_pos (Or.inr trivial),
      if_neg (by decide : ¬(some (chars "Flight") = none ∨
        some (chars "Flight") = some (chars "Hotel"))), if_pos trivial]
    exact List.append_nil _
  rw [hflight] at hmem
  rcases List.mem_map.1 hmem with ⟨fl, hfl, rfl⟩
  simp only [flightQuery] at hfl
  rw [hd] at hfl
  simp only [Bool.false_eq_true, if_false] at hfl
  split at hfl
  · -- exact-date tier
    have hfl2 := List.mem_filter.1 (List.take_subset _ _ hfl)
    have hsplit := hfl2.2
    simp only [Bool.and_eq_true] at hsplit
    exact ⟨fl, hfl2.1, rfl, hsplit.1.1, Or.inl ⟨hsplit.1.2, hsplit.2⟩⟩
  · split at hfl
    · rename_i hlen
      split at hfl
      · -- year-month tier
        have hfl2 := List.mem_filter.1 (List.take_subset _ _ hfl)
        have hsplit := hfl2.2
        simp only [Bool.and_eq_true] at hsplit
        exact ⟨fl, hfl2.1, rfl, hsplit.1, Or.inr (Or.inl ⟨hlen, hsplit.2⟩)⟩
      · -- relaxed tier
        have hfl2 := List.mem_filter.1
          ((mem_stableSort _ _ _).1 (List.take_subset _ _ hfl))
        have hsplit := hfl2.2
        simp only [Bool.and_eq_true] at hsplit
        exact ⟨fl, hfl2.1, rfl, hsplit.1, Or.inr (Or.inr hsplit.2)⟩
    · split at hfl
      · cases hfl
      · -- relaxed tier
        have hfl2 := List.mem_filter.1
          ((mem_stableSort _ _ _).1 (List.take_subset _ _ hfl))
        have hsplit := hfl2.2
        simp only [Bool.and_eq_true] at hsplit
        exact ⟨fl, hfl2.1, rfl, hsplit.1, Or.inr (Or.inr hsplit.2)⟩

/-- Witness for the amended C7 theorem at the concrete catalog: the flight
returned through the year-month fallback matches destination and year-month
(but, per the counterexample, not the budget). -/
theorem get_recommendations_date_fallback_witness :
    ((chars "2025-12-25").isEmpty = false ∧
      RecItem.flight (flightToRec c7flight) ∈
        get_recommendations c7db (some (chars "Goa")) (some (Qv.ofNat 100))
          (some (chars "Flight")) (some (chars "2025-12-25"))) ∧
    ∃ fl ∈ c7db.flights,
      RecItem.flight (flightToRec c7flight) = RecItem.flight (flightToRec fl) ∧
      destOKf (some (chars "Goa")) fl = true ∧
      ((budgetOKf (some (Qv.ofNat 100)) fl = true ∧
          likeContains fl.departure_date (chars "2025-12-25") = true) ∨
       (7 ≤ (chars "2025-12-25").length ∧
          likeContains fl.departure_date ((chars "2025-12-25").take 7) = true) ∨
       budgetOKf (some (Qv.ofNat 100)) fl = true) :=
  ⟨⟨by decide, by decide⟩,
   get_recommendations_date_fallback c7db (some (chars "Goa")) (some (Qv.ofNat 100))
     (chars "2025-12-25") (by decide) (RecItem.flight (flightToRec c7flight)) (by decide)⟩

/-- Boolean negation inversion. -/
theorem bnot_true_down (a : Bool) (h : (!a) = true) : a = false := by
  cases a
  · rfl
  · exact absurd h (by decide)

/-- Slot filling never touches the recommendation cache. -/
theorem applySlotFill_last (env : Env) (message : Str) (ex : Extracted) (s : AgentState) :
    (applySlotFill env message ex s).last_recommendations = s.last_recommendations := by
  cases haw : s.awaiting_slot with
  | none => simp only [applySlotFill, haw]
  | some sl => cases sl <;> simp only [applySlotFill, haw] <;> split <;> rfl

/-- Under the slot invariant, section 0 always clears `awaiting_slot`. -/
theorem applySlotFill_awaiting (env : Env) (message : Str) (ex : Extracted) (s : AgentState)
    (hinv : SlotInv s) : (applySlotFill env message ex s).awaiting_slot = none := by
  cases haw : s.awaiting_slot with
  | none => simp only [applySlotFill, haw]
  | some sl =>
    have hf := hinv sl haw
    cases sl <;> simp only [slotField] at hf <;>
      simp only [applySlotFill, haw, hf, Bool.not_false, if_true]

/-- The gate's early returns set `awaiting_slot` only for a slot whose
context field is still falsy, and do not touch the context. -/
theorem slotGate_inv (ex : Extracted) (hf : Bool) (s : AgentState) (rs : Resp × AgentState)
    (h : slotGate ex hf s = some rs) : rs.2.ctx = s.ctx ∧ SlotInv rs.2 := by
  simp only [slotGate] at h
  split at h
  · split at h
    · injection h with h
      subst h
      refine ⟨rfl, ?_⟩
      intro sl hsl
      injection hsl with hsl
      subst hsl
      rename_i hc
      exact bnot_true_down _ hc
    · split at h
      · injection h with h
        subst h
        refine ⟨rfl, ?_⟩
        intro sl hsl
        injection hsl with hsl
        subst hsl
        rename_i hc2
        have hc2' := hc2
        simp only [Bool.and_eq_true] at hc2'
        cases hf with
        | true => simpa [slotField] using bnot_true_down _ hc2'.2
        | false => simpa [slotField] using bnot_true_down _ hc2'.1
      · split at h
        · injection h with h
          subst h
          refine ⟨rfl, ?_⟩
          intro sl hsl
          injection hsl with hsl
          subst hsl
          rename_i hc3
          have hc3' := hc3
          simp only [Bool.and_eq_true] at hc3'
          simpa [slotField] using bnot_true_down _ hc3'.2
        · split at h
          · injection h with h
            subst h
            refine ⟨rfl, ?_⟩
            intro sl hsl
            injection hsl with hsl
            subst hsl
            rename_i hc4
            have hc4' := hc4
            simp only [Bool.and_eq_true] at hc4'
            simpa [slotField] using bnot_true_down _ hc4'.2
          · split at h
            · injection h with h
              subst h
              refine ⟨rfl, ?_⟩
              intro sl hsl
              injection hsl with hsl
              subst hsl
              rename_i hc5
              simpa [slotField] using bnot_true_down _ hc5
            · exact Option.noConfusion h
  · exact Option.noConfusion h

/-- The terminal fallbacks return the state unchanged. -/
theorem fallbackResp_state (message : Str) (s : AgentState) :
    (fallbackResp message s).state = s := by
  simp only [fallbackResp]
  repeat' split
  all_goals rfl

/-- The booking branch and its fallbacks return the state unchanged. -/
theorem bookOrFallback_state (env : Env) (message : Str) (ex : Extracted) (s : AgentState) :
    (bookOrFallback env message ex s).state = s := by
  simp only [bookOrFallback]
  repeat' split
  all_goals first
    | rfl
    | exact fallbackResp_state _ _

/-- The standard refine search changes only the recommendation cache. -/
theorem refineStandard_ctx (env : Env) (message : Str) (s : AgentState) (dest : Str) :
    (refineStandard env message s dest).state.ctx = s.ctx := by
  simp only [refineStandard]
  repeat' split
  all_goals rfl

theorem refineStandard_awaiting (env : Env) (message : Str) (s : AgentState) (dest : Str) :
    (refineStandard env message s dest).state.awaiting_slot = s.awaiting_slot := by
  simp only [refineStandard]
  repeat' split
  all_goals rfl

/-- The post-gate dispatch never changes the context. -/
theorem dispatchIntents_ctx (env : Env) (message : Str) (ex : Extracted) (s : AgentState) :
    (dispatchIntents env message ex s).state.ctx = s.ctx := by
  simp only [dispatchIntents]
  repeat' split
  all_goals first
    | rfl
    | exact refineStandard_ctx _ _ _ _
    | rw [bookOrFallback_state]

/-- The post-gate dispatch never changes the pending slot. -/
theorem dispatchIntents_awaiting (env : Env) (message : Str) (ex : Extracted)
    (s : AgentState) :
    (dispatchIntents env message ex s).state.awaiting_slot = s.awaiting_slot := by
  simp only [dispatchIntents]
  repeat' split
  all_goals first
    | rfl
    | exact refineStandard_awaiting _ _ _ _
    | rw [bookOrFallback_state]

/-- C8: the awaiting-slot invariant is preserved by every `process_message`
turn: if a slot is pending at the end of a turn, its context field is still
unset.  Section 0 clears any pending slot whose field is unset (which the
invariant guarantees on entry), and the gate re-arms a slot only right after
checking that its field is falsy, returning immediately. -/
theorem awaiting_slot_invariant (env : Env) (s : AgentState) (message : Str)
    (hinv : SlotInv s) : SlotInv (process_message env s message).state := by
  simp only [process_message]
  split
  · rename_i rs hg
    exact (slotGate_inv _ _ _ rs hg).2
  · intro sl hsl
    rw [dispatchIntents_awaiting] at hsl
    have h0 := applySlotFill_awaiting env message (extract message) s hinv
    split at hsl <;> dsimp only at hsl <;> rw [h0] at hsl <;> exact Option.noConfusion hsl

/-- Witness for C8 at a concrete state (awaiting the dates slot with no date
set) and a concrete message. -/
theorem awaiting_slot_invariant_witness :
    SlotInv c8state ∧ SlotInv (process_message sampleEnv c8state (chars "next week")).state :=
  ⟨fun sl h => by
      simp only [c8state] at h
      injection h with h
      subst h
      decide,
   awaiting_slot_invariant sampleEnv c8state (chars "next week")
     (fun sl h => by
        simp only [c8state] at h
        injection h with h
        subst h
        decide)⟩

/-- C6: when the agent is awaiting the origin slot and a destination is
already set, a turn whose utterance names a different vocabulary city (the
NLU reports it as `destination`, no origin phrase) stores that city as the
context origin and leaves the stored destination unchanged. -/
theorem origin_answer_preserves_destination (env : Env) (s : AgentState) (message : Str)
    (d c : Str)
    (haw : s.awaiting_slot = some Slot.origin)
    (horig : pyTruthyS s.ctx.origin = false)
    (hdest : s.ctx.destination = some d) (hd : d.isEmpty = false)
    (hexo : (extract message).origin = none)
    (hexd : (extract message).destination = some c) (hcne : c.isEmpty = false)
    (hdiff : (lowerStr c == lowerStr d) = false) :
    (process_message env s message).state.ctx.destination = some d ∧
    (process_message env s message).state.ctx.origin = some c := by
  have hfill : applySlotFill env message (extract message) s =
      { s with ctx := { s.ctx with origin := some c }, awaiting_slot := none } := by
    simp only [applySlotFill, haw]
    rw [horig]
    simp only [Bool.not_false, eq_self_iff_true, if_true, hexo, hexd, hdest, pyOrS,
      pyTruthyS, hcne, hd, Bool.true_and, hdiff, Bool.false_eq_true, if_false,
      Option.getD_some]
  have h2d : (applyMerges (extract message)
      (applySlotFill env message (extract message) s).ctx).destination = some d := by
    rw [hfill]
    simp only [applyMerges, hexd, pyTruthyS, hcne, hdest, hd, Bool.not_false, Bool.not_true,
      Bool.and_false, Bool.false_eq_true, if_false]
  have h2o : (applyMerges (extract message)
      (applySlotFill env message (extract message) s).ctx).origin = some c := by
    rw [hfill]
    simp only [applyMerges, hexo, pyTruthyS, Bool.false_eq_true, if_false]
  have hskip : ((extract message).origin == some (chars "Skip")) = false := by
    rw [hexo]
    rfl
  simp only [process_message]
  split
  · rename_i rs hg
    have hctx := (slotGate_inv _ _ _ rs hg).1
    constructor
    · show rs.2.ctx.destination = some d
      rw [hctx]
      exact h2d
    · show rs.2.ctx.origin = some c
      rw [hctx]
      exact h2o
  · rw [hskip]
    constructor
    · rw [dispatchIntents_ctx]
      simp only [Bool.false_eq_true, if_false]
      exact h2d
    · rw [dispatchIntents_ctx]
      simp only [Bool.false_eq_true, if_false]
      exact h2o

/-- Witness for C6: destination Mumbai fixed, answer "Delhi" while awaiting
the origin slot ends the turn with origin Delhi and destination still
Mumbai. -/
theorem origin_answer_preserves_destination_witness :
    (c6state.awaiting_slot = some Slot.origin ∧
      pyTruthyS c6state.ctx.origin = false ∧
      c6state.ctx.destination = some (chars "Mumbai") ∧
      (chars "Mumbai").isEmpty = false ∧
      (extract (chars "Delhi")).origin = none ∧
      (extract (chars "Delhi")).destination = some (chars "Delhi") ∧
      (chars "Delhi").isEmpty = false ∧
      (lowerStr (chars "Delhi") == lowerStr (chars "Mumbai")) = false) ∧
    ((process_message sampleEnv c6state (chars "Delhi")).state.ctx.destination =
        some (chars "Mumbai") ∧
      (process_message sampleEnv c6state (chars "Delhi")).state.ctx.origin =
        some (chars "Delhi")) :=
  ⟨⟨by decide, by decide, by decide, by decide, by decide, by decide, by decide, by decide⟩,
   origin_answer_preserves_destination sampleEnv c6state (chars "Delhi")
     (chars "Mumbai") (chars "Delhi") (by decide) (by decide) (by decide) (by decide)
     (by decide) (by decide) (by decide) (by decide)⟩

/-- The gate is inert for intents other than search/refine. -/
theorem slotGate_not_searchRefine (ex : Extracted) (hf : Bool) (s : AgentState)
    (h1 : (ex.intent == chars "search") = false)
    (h2 : (ex.intent == chars "refine") = false) : slotGate ex hf s = none := by
  simp only [slotGate, h1, h2, Bool.or_self, Bool.false_and, Bool.false_eq_true, if_false]

/-- The Skip-origin patch does not touch the recommendation cache. -/
theorem skipPatch_last (ex : Extracted) (s2 : AgentState) :
    (if (ex.origin == some (chars "Skip")) = true then
      { s2 with ctx := { s2.ctx with origin := some (chars "Unknown") } }
    else s2).last_recommendations = s2.last_recommendations := by
  split <;> rfl

/-- The terminal fallbacks: no effects, unchanged state, and one of the four
fallback replies. -/
theorem fallbackResp_shape (message : Str) (s : AgentState) :
    (fallbackResp message s).effects = [] ∧ (fallbackResp message s).state = s ∧
    ((∃ dst, (fallbackResp message s).resp = Resp.missingDatePrompt dst) ∨
      (fallbackResp message s).resp = Resp.whereTo ∨
      (∃ dst ds, (fallbackResp message s).resp = Resp.waitAck dst ds) ∨
      (fallbackResp message s).resp = Resp.pleaseWait) := by
  refine ⟨?_, fallbackResp_state _ _, ?_⟩
  · simp only [fallbackResp]
    repeat' split
    all_goals rfl
  · simp only [fallbackResp]
    repeat' split
    · exact Or.inl ⟨_, rfl⟩
    · exact Or.inr (Or.inl rfl)
    · exact Or.inr (Or.inr (Or.inl ⟨_, _, rfl⟩))
    · exact Or.inr (Or.inr (Or.inr rfl))

/-- C10 amended: a book-intent turn with an empty recommendation cache never
invokes booking persistence (no effects at all), returns no confirmation or
failure message but one of the four terminal fallbacks (missing-date prompt,
where-to prompt, deferred-search acknowledgement, or "Please wait..."), and
leaves the recommendation cache empty. -/
theorem book_without_recommendations (env : Env) (s : AgentState) (message : Str)
    (hint : (extract message).intent = chars "book")
    (hrecs : s.last_recommendations = []) :
    (process_message env s message).effects = [] ∧
    (process_message env s message).state.last_recommendations = [] ∧
    ((∃ dst, (process_message env s message).resp = Resp.missingDatePrompt dst) ∨
      (process_message env s message).resp = Resp.whereTo ∨
      (∃ dst ds, (process_message env s message).resp = Resp.waitAck dst ds) ∨
      (process_message env s message).resp = Resp.pleaseWait) := by
  have h1 : ((extract message).intent == chars "search") = false := by rw [hint]; decide
  have h2 : ((extract message).intent == chars "refine") = false := by rw [hint]; decide
  have h3 : ((extract message).intent == chars "bundle") = false := by rw [hint]; decide
  have h4 : ((extract message).intent == chars "show_flights") = false := by rw [hint]; decide
  have h5 : ((extract message).intent == chars "watch") = false := by rw [hint]; decide
  simp only [process_message]
  rw [slotGate_not_searchRefine _ _ _ h1 h2]
  simp only [dispatchIntents, h3, h4, h2, h5, Bool.false_eq_true, if_false]
  simp only [bookOrFallback]
  cases hskip : ((extract message).origin == some (chars "Skip")) with
  | true =>
    simp only [hskip, eq_self_iff_true, if_true, applySlotFill_last, hrecs,
      List.isEmpty_nil, Bool.not_true, Bool.and_false, Bool.false_eq_true, if_false,
      fallbackResp_state]
    exact ⟨(fallbackResp_shape _ _).1, trivial, (fallbackResp_shape _ _).2.2⟩
  | false =>
    simp only [hskip, eq_self_iff_true, if_true, applySlotFill_last, hrecs,
      List.isEmpty_nil, Bool.not_true, Bool.and_false, Bool.false_eq_true, if_false,
      fallbackResp_state]
    exact ⟨(fallbackResp_shape _ _).1, trivial, (fallbackResp_shape _ _).2.2⟩

/-- C10 counterexample to the claimed fallthrough enumeration: a book-intent
turn with no cached recommendations and a date already set, whose message
contains "wait", ends in the terminal "Please wait..." reply — not the
missing-date prompt and not the deferred-search acknowledgement (and still
with no booking effects). -/
theorem book_without_recommendations_counterexample :
    (extract (chars "book it please wait")).intent = chars "book" ∧
    c10state.last_recommendations = [] ∧
    (process_message sampleEnv c10state (chars "book it please wait")).resp =
      Resp.pleaseWait ∧
    (process_message sampleEnv c10state (chars "book it please wait")).effects = [] := by
  decide

/-- Witness for the amended C10 theorem at the same concrete turn. -/
theorem book_without_recommendations_witness :
    ((extract (chars "book a flight to Goa")).intent = chars "book" ∧
      c10state.last_recommendations = []) ∧
    ((process_message sampleEnv c10state (chars "book a flight to Goa")).effects = [] ∧
      (process_message sampleEnv c10state
          (chars "book a flight to Goa")).state.last_recommendations = [] ∧
      ((∃ dst, (process_message sampleEnv c10state (chars "book a flight to Goa")).resp =
          Resp.missingDatePrompt dst) ∨
        (process_message sampleEnv c10state (chars "book a flight to Goa")).resp =
          Resp.whereTo ∨
        (∃ dst ds, (process_message sampleEnv c10state (chars "book a flight to Goa")).resp =
          Resp.waitAck dst ds) ∨
        (process_message sampleEnv c10state (chars "book a flight to Goa")).resp =
          Resp.pleaseWait)) :=
  ⟨⟨by decide, by decide⟩,
   book_without_recommendations sampleEnv c10state (chars "book a flight to Goa")
     (by decide) (by decide)⟩
